import Mathlib

/-!
Verification of the payment finalization state machine and the promo/discount
reservation subsystem of the remnawave-tg-shop repository.

Shallow embedding conventions:
* Python floats carrying money/percentages are idealized as exact rationals
  (`ℚ`); Python's `round(x, 2)` is idealized as round-half-even on rationals.
* UTC instants are idealized as integers (`ℤ`); only their linear order is used.
* Database tables are lists of rows inside one session; a conditional
  UPDATE/DELETE is a function from the list to the new list together with the
  "affected rows > 0" boolean that the code uses as its success signal.
* Fallible collaborators (provider verification API, subscription activation,
  payment-record creation, invoice sending) are oracle parameters; an
  exception raised by a collaborator is an explicit constructor of its
  outcome type.
* `db.dal.payment_dal` and `db.dal.promo_code_dal` are not part of the source
  tree under verification; their atomic operations are modelled from the
  spec's description (sections 4.2, 4.3 and the design note on conditional
  single-statement updates) and from the contracts their call sites rely on.
  Each such definition carries a `Modelled from the spec:` doc comment.
-/

/-- String constants used by the embedded code (named so that status strings
appear once, next to the Python literal they transcribe). -/
def succeededStatus : String := "succeeded"

/-- Status literal `"processing"` from the finalizer state machine. -/
def processingStatus : String := "processing"

/-- Status-family stem `"pending"` used by the claim-for-processing guard. -/
def pendingStem : String := "pending"

/-- Status literal `"pending_yookassa"` (fallback rollback target). -/
def pendingYookassa : String := "pending_yookassa"

/-- Status literal `"pending_stars"` from StarsService.create_invoice. -/
def pendingStars : String := "pending_stars"

/-- Status-family stem `"failed"` used by the webhook route's terminal check. -/
def failedStem : String := "failed"

/-- Status literal `"failed_metadata_error"` from payment.py line 201. -/
def failedMetadataError : String := "failed_metadata_error"

/-- Status literal `"failed_user_not_found"` from payment.py line 188. -/
def failedUserNotFound : String := "failed_user_not_found"

/-- Sale-mode literal `"traffic"`. -/
def trafficMode : String := "traffic"

/-- Python truthiness of an optional string: an absent key and the empty
string are both falsy (`metadata.get("...")` followed by `not`/`or`). -/
def truthyStr : Option String → Option String
  | some s => if s.isEmpty then none else some s
  | none => none

/-- Value of a nonempty digit sequence (left fold, base 10); `none` when any
character is not a decimal digit. -/
def digitsVal (cs : List Char) (acc : ℕ) : Option ℕ :=
  match cs with
  | [] => some acc
  | c :: rest => if c.isDigit then digitsVal rest (acc * 10 + (c.toNat - 48)) else none

/-- `int(s)` for an all-digit string (the `isdigit()`-guarded conversions). -/
def pyToNat? (s : String) : Option ℕ :=
  if s.data.isEmpty then none else digitsVal s.data 0

/-- Python `str.isdigit()`: nonempty and all decimal digits. -/
def pyIsDigit (s : String) : Bool :=
  !(s.data.isEmpty) && (digitsVal s.data 0).isSome

/-- Python `int(s)` for an optional minus sign and digits; `none` models a
raised `ValueError`. -/
def pyInt? (s : String) : Option ℤ :=
  match s.data with
  | [] => none
  | c :: rest =>
    if c == '-' then
      if rest.isEmpty then none else (digitsVal rest 0).map (fun n => -(n : ℤ))
    else if rest.isEmpty then (digitsVal [c] 0).map (fun n => (n : ℤ))
    else (digitsVal (c :: rest) 0).map (fun n => (n : ℤ))

/-- Split a character list at the first dot. -/
def splitAtDot : List Char → List Char × Option (List Char)
  | [] => ([], none)
  | c :: rest =>
    if c == '.' then ([], some rest)
    else
      let r := splitAtDot rest
      (c :: r.1, r.2)

/-- Python `float(s)` idealized over decimal notation (optional sign, integer
part, optional fractional part — every shape this code feeds to `float`);
`none` models a raised `ValueError`. -/
def pyFloat? (s : String) : Option ℚ :=
  let core : List Char → Option ℚ := fun cs =>
    if cs.isEmpty then none
    else
      let sp := splitAtDot cs
      match sp.2 with
      | none => (digitsVal sp.1 0).map (fun n => (n : ℚ))
      | some frac =>
        if sp.1.isEmpty && frac.isEmpty then none
        else
          match digitsVal sp.1 0, digitsVal frac 0 with
          | some a, some b => some ((a : ℚ) + (b : ℚ) / ((10 : ℚ) ^ frac.length))
          | _, _ => none
  match s.data with
  | c :: rest => if c == '-' then (core rest).map (fun q => -q) else core s.data
  | [] => none

/-- Python `str.startswith` over character lists (`String.startsWith` does
not reduce inside the kernel). -/
def charsStem : List Char → List Char → Bool
  | [], _ => true
  | _ :: _, [] => false
  | c :: cs, d :: ds => c == d && charsStem cs ds

/-- `status.startswith(stem)`. -/
def pyStartsWith (s stem : String) : Bool := charsStem stem.data s.data

/-- Python `str.strip()` (whitespace restricted to spaces). -/
def pyStrip (s : String) : String :=
  ⟨(((s.data.dropWhile (fun c => c == ' ')).reverse.dropWhile
      (fun c => c == ' ')).reverse)⟩

/-- Python `str.upper()` for ASCII. -/
def pyUpperChar (c : Char) : Char :=
  if c.isLower then Char.ofNat (c.toNat - 32) else c

/-- `currency.upper()`. -/
def pyUpper (s : String) : String := ⟨s.data.map pyUpperChar⟩

/-- Round-half-even of a rational to an integer: Python's builtin `round`
idealized over exact rationals (banker's rounding). -/
def roundHalfEven (q : ℚ) : ℤ :=
  if q - (⌊q⌋ : ℚ) < 1 / 2 then ⌊q⌋
  else if 1 / 2 < q - (⌊q⌋ : ℚ) then ⌊q⌋ + 1
  else if 2 ∣ ⌊q⌋ then ⌊q⌋ else ⌊q⌋ + 1

/-- Python `round(x, 2)` idealized over rationals. -/
def round2 (q : ℚ) : ℚ := (roundHalfEven (q * 100) : ℚ) / 100

/-- Transcribed from `PromoCodeService.calculate_discounted_price`
(promo_code_service.py lines 355-372): the discount amount is rounded first,
the final price is the rounded difference, and a negative final price clamps
to `(0, original_price)`. -/
def calculate_discounted_price (original_price : ℚ) (discount_percentage : ℤ) : ℚ × ℚ :=
  let discount_amount := round2 (original_price * ((discount_percentage : ℚ) / 100))
  let final_price := round2 (original_price - discount_amount)
  if final_price < 0 then (0, original_price) else (final_price, discount_amount)

/-- The price pair as claim C9 words it (spec side, for comparison with the
source function): discounted price `round(original * (1 - pct/100), 2)` and
discount amount `original - discounted`. -/
def claimC9DiscountPair (original_price : ℚ) (discount_percentage : ℤ) : ℚ × ℚ :=
  let discounted := round2 (original_price * (1 - (discount_percentage : ℚ) / 100))
  (discounted, original_price - discounted)

/-- Round-half-even applied to an integer is that integer. -/
theorem roundHalfEven_intCast (n : ℤ) : roundHalfEven (n : ℚ) = n := by
  simp [roundHalfEven]

/-- Round-half-even never exceeds the ceiling. -/
theorem roundHalfEven_le_ceil (q : ℚ) : roundHalfEven q ≤ ⌈q⌉ := by
  unfold roundHalfEven
  have hfc := Int.floor_le_ceil q
  split
  · exact hfc
  next h =>
    have h1 : (⌊q⌋ : ℚ) < q := by push_neg at h; linarith
    have h2 : ⌊q⌋ < ⌈q⌉ := by exact_mod_cast lt_of_lt_of_le h1 (Int.le_ceil q)
    split
    · omega
    · split
      · exact hfc
      · omega

/-- The floor never exceeds round-half-even. -/
theorem floor_le_roundHalfEven (q : ℚ) : ⌊q⌋ ≤ roundHalfEven q := by
  unfold roundHalfEven
  split
  · exact le_refl _
  · split
    · omega
    · split
      · exact le_refl _
      · omega

/-- `round2` fixes every rational with at most two decimal places. -/
theorem round2_div_hundred (n : ℤ) : round2 ((n : ℚ) / 100) = (n : ℚ) / 100 := by
  unfold round2
  rw [div_mul_cancel₀ _ (by norm_num : (100 : ℚ) ≠ 0), roundHalfEven_intCast]

/-- C9, counterexample: at original price 0.01 and percentage 50 the code
returns (0.01, 0.00) — the rounded discount amount is 0.00 (half-even ties go
down) and the final price is the rounded difference 0.01 — while the claim's
formula yields discounted price `round(0.01 * 0.5, 2) = 0.00` with discount
amount `0.01 - 0.00 = 0.01`.  The code does not return the claimed pair. -/
theorem claim_C9_counterexample :
    calculate_discounted_price (1 / 100) 50 ≠ claimC9DiscountPair (1 / 100) 50 := by
  intro h
  have h1 := congrArg Prod.fst h
  norm_num [calculate_discounted_price, claimC9DiscountPair, round2, roundHalfEven] at h1

/-- C9 (amended): `calculate_discounted_price` first rounds the discount
amount, `amount = round(original * pct/100, 2)`, and returns the final price
as the rounded difference; for a nonnegative original price `k/100` with at
most two decimal places and a percentage between 0 and 100 no clamping
occurs, the final price is exactly `original - amount`, the pair sums back to
the original price and the final price is nonnegative (10% off 100.00 still
yields final price 90.00 and discount amount 10.00). -/
theorem claim_C9_amended (k p : ℤ) (hk : 0 ≤ k) (hp0 : 0 ≤ p) (hp1 : p ≤ 100) :
    (calculate_discounted_price ((k : ℚ) / 100) p).2
        = round2 (((k : ℚ) / 100) * ((p : ℚ) / 100)) ∧
      (calculate_discounted_price ((k : ℚ) / 100) p).1
        = (k : ℚ) / 100 - (calculate_discounted_price ((k : ℚ) / 100) p).2 ∧
      (calculate_discounted_price ((k : ℚ) / 100) p).1
          + (calculate_discounted_price ((k : ℚ) / 100) p).2 = (k : ℚ) / 100 ∧
      0 ≤ (calculate_discounted_price ((k : ℚ) / 100) p).1 := by
  have h100 : ((k : ℚ) / 100) * ((p : ℚ) / 100) * 100 = ((k * p : ℤ) : ℚ) / 100 := by
    push_cast
    ring
  have ha : round2 (((k : ℚ) / 100) * ((p : ℚ) / 100))
      = (roundHalfEven (((k * p : ℤ) : ℚ) / 100) : ℚ) / 100 := by
    unfold round2
    rw [h100]
  have hkp0 : (0 : ℚ) ≤ ((k * p : ℤ) : ℚ) / 100 := by
    have hn : (0 : ℤ) ≤ k * p := mul_nonneg hk hp0
    have : (0 : ℚ) ≤ ((k * p : ℤ) : ℚ) := by exact_mod_cast hn
    linarith
  have hm0 : 0 ≤ roundHalfEven (((k * p : ℤ) : ℚ) / 100) :=
    le_trans (Int.le_floor.mpr (by simpa using hkp0)) (floor_le_roundHalfEven _)
  have hmk : roundHalfEven (((k * p : ℤ) : ℚ) / 100) ≤ k := by
    have h1 : (((k * p : ℤ) : ℚ) / 100) ≤ ((k : ℚ)) := by
      rw [div_le_iff₀ (by norm_num : (0 : ℚ) < 100)]
      push_cast
      have hb := mul_le_mul_of_nonneg_left (show (p : ℚ) ≤ 100 by exact_mod_cast hp1)
        (show (0 : ℚ) ≤ (k : ℚ) by exact_mod_cast hk)
      linarith
    calc roundHalfEven (((k * p : ℤ) : ℚ) / 100)
        ≤ ⌈((k * p : ℤ) : ℚ) / 100⌉ := roundHalfEven_le_ceil _
      _ ≤ ⌈(k : ℚ)⌉ := Int.ceil_le_ceil h1
      _ = k := Int.ceil_intCast k
  have hxa : (k : ℚ) / 100 - (roundHalfEven (((k * p : ℤ) : ℚ) / 100) : ℚ) / 100
      = ((k - roundHalfEven (((k * p : ℤ) : ℚ) / 100) : ℤ) : ℚ) / 100 := by
    push_cast
    ring
  have hfinal : round2 ((k : ℚ) / 100 - (roundHalfEven (((k * p : ℤ) : ℚ) / 100) : ℚ) / 100)
      = (k : ℚ) / 100 - (roundHalfEven (((k * p : ℤ) : ℚ) / 100) : ℚ) / 100 := by
    rw [hxa, round2_div_hundred, ← hxa]
  have hfin0 : 0 ≤ (k : ℚ) / 100 - (roundHalfEven (((k * p : ℤ) : ℚ) / 100) : ℚ) / 100 := by
    have hc : (roundHalfEven (((k * p : ℤ) : ℚ) / 100) : ℚ) ≤ (k : ℚ) := by exact_mod_cast hmk
    linarith
  simp only [calculate_discounted_price, ha, hfinal]
  rw [if_neg (by linarith)]
  refine ⟨rfl, by ring, by ring, hfin0⟩

/-- Witness for C9's amended theorem at original price 100.00 and 10%:
hypotheses hold and the code returns final price 90.00, discount 10.00. -/
theorem claim_C9_amended_witness :
    (0 ≤ (10000 : ℤ) ∧ 0 ≤ (10 : ℤ) ∧ (10 : ℤ) ≤ 100) ∧
      ((calculate_discounted_price ((10000 : ℚ) / 100) 10).2
          = round2 (((10000 : ℚ) / 100) * ((10 : ℚ) / 100)) ∧
        (calculate_discounted_price ((10000 : ℚ) / 100) 10).1
          = (10000 : ℚ) / 100 - (calculate_discounted_price ((10000 : ℚ) / 100) 10).2 ∧
        (calculate_discounted_price ((10000 : ℚ) / 100) 10).1
            + (calculate_discounted_price ((10000 : ℚ) / 100) 10).2 = (10000 : ℚ) / 100 ∧
        0 ≤ (calculate_discounted_price ((10000 : ℚ) / 100) 10).1) ∧
      calculate_discounted_price 100 10 = (90, 10) := by
  refine ⟨⟨by decide, by decide, by decide⟩,
    claim_C9_amended 10000 10 (by decide) (by decide) (by decide), ?_⟩
  norm_num [calculate_discounted_price, round2, roundHalfEven]

/-- Row of the `active_discounts` table: alembic migration 0001 (lines
180-189) declares `user_id` as the table's primary key, and migration 0002
adds the non-nullable `expires_at` column.  Timestamps are idealized as
integers. -/
structure ActiveDiscountRow where
  user_id : ℤ
  promo_code_id : ℕ
  discount_percentage : ℤ
  activated_at : ℤ
  expires_at : ℤ
deriving DecidableEq, Repr

/-- The table inside one session. -/
abbrev DiscountStore := List ActiveDiscountRow

/-- The primary-key invariant of `active_discounts`: no two rows share a
`user_id`. -/
def UniqueUserRows (s : DiscountStore) : Prop :=
  s.Pairwise (fun a b => a.user_id ≠ b.user_id)

instance (s : DiscountStore) : Decidable (UniqueUserRows s) :=
  inferInstanceAs (Decidable (s.Pairwise _))

/-- Transcribed from `active_discount_dal.get_active_discount` (lines 53-64):
select the user's row, keeping expired rows only when `include_expired`. -/
def get_active_discount (store : DiscountStore) (user_id : ℤ)
    (include_expired : Bool) (now : ℤ) : Option ActiveDiscountRow :=
  store.find? (fun r =>
    r.user_id == user_id && (include_expired || decide (now < r.expires_at)))

/-- Transcribed from `active_discount_dal.clear_active_discount` (lines
67-81): delete by user id; the success signal is `rowcount > 0`. -/
def clear_active_discount (store : DiscountStore) (user_id : ℤ) :
    DiscountStore × Bool :=
  let kept := store.filter (fun r => !(r.user_id == user_id))
  (kept, decide (kept.length < store.length))

/-- Transcribed from `active_discount_dal.clear_active_discount_if_expired`
(lines 84-102): delete the user's row only when it has already expired. -/
def clear_active_discount_if_expired (store : DiscountStore) (user_id : ℤ)
    (now : ℤ) : DiscountStore × Bool :=
  let kept := store.filter (fun r =>
    !(r.user_id == user_id && decide (r.expires_at ≤ now)))
  (kept, decide (kept.length < store.length))

/-- The condition list built by
`active_discount_dal.clear_active_discount_if_matches` (lines 114-118): user
id plus the optional promo-code and expiry-at-or-before constraints. -/
def matchesConstraints (user_id : ℤ) (promo_code_id : Option ℕ)
    (expires_at_lte : Option ℤ) (r : ActiveDiscountRow) : Bool :=
  r.user_id == user_id
    && (match promo_code_id with
        | some pc => r.promo_code_id == pc
        | none => true)
    && (match expires_at_lte with
        | some t => decide (r.expires_at ≤ t)
        | none => true)

/-- Transcribed from `active_discount_dal.clear_active_discount_if_matches`
(lines 105-129): conditional delete on the constraint list; the success
signal is `rowcount > 0`. -/
def clear_active_discount_if_matches (store : DiscountStore) (user_id : ℤ)
    (promo_code_id : Option ℕ) (expires_at_lte : Option ℤ) :
    DiscountStore × Bool :=
  let kept := store.filter (fun a => !(matchesConstraints user_id promo_code_id expires_at_lte a))
  (kept, decide (kept.length < store.length))

/-- Transcribed from `active_discount_dal.set_active_discount` (lines 11-50):
refuse when the user still holds a live reservation; clear an expired one
first; then insert the new row. -/
def set_active_discount (store : DiscountStore) (user_id : ℤ)
    (promo_code_id : ℕ) (discount_percentage : ℤ) (expires_at : ℤ) (now : ℤ) :
    DiscountStore × Option ActiveDiscountRow :=
  match get_active_discount store user_id true now with
  | some existing =>
    if now < existing.expires_at then (store, none)
    else
      let cleared := (clear_active_discount_if_expired store user_id now).1
      let row : ActiveDiscountRow :=
        ⟨user_id, promo_code_id, discount_percentage, now, expires_at⟩
      (cleared ++ [row], some row)
  | none =>
    let row : ActiveDiscountRow :=
      ⟨user_id, promo_code_id, discount_percentage, now, expires_at⟩
    (store ++ [row], some row)

/-- Two rows of a primary-key-respecting store with the same user id are the
same row. -/
theorem uniqueUserRows_eq {s : DiscountStore} (h : UniqueUserRows s)
    {a b : ActiveDiscountRow} (ha : a ∈ s) (hb : b ∈ s)
    (hu : a.user_id = b.user_id) : a = b := by
  induction s with
  | nil => cases ha
  | cons x xs ih =>
    rcases List.pairwise_cons.mp h with ⟨hx, hxs⟩
    rcases List.mem_cons.mp ha with rfl | ha'
    · rcases List.mem_cons.mp hb with rfl | hb'
      · rfl
      · exact absurd hu (hx _ hb')
    · rcases List.mem_cons.mp hb with rfl | hb'
      · exact absurd hu.symm (hx _ ha')
      · exact ih hxs ha' hb'

/-- If the unconditional-read lookup finds nothing, the store has no row for
that user at all. -/
theorem get_active_discount_none {store : DiscountStore} {uid now : ℤ}
    (h : get_active_discount store uid true now = none) :
    ∀ r ∈ store, r.user_id ≠ uid := by
  intro r hr
  have hp := List.find?_eq_none.mp h r hr
  simp only [Bool.or_true, Bool.and_true] at hp
  simpa using hp

/-- A found row belongs to the store and has the looked-up user id. -/
theorem get_active_discount_some {store : DiscountStore} {uid now : ℤ}
    {inc : Bool} {ex : ActiveDiscountRow}
    (h : get_active_discount store uid inc now = some ex) :
    ex ∈ store ∧ ex.user_id = uid := by
  refine ⟨List.mem_of_find?_eq_some h, ?_⟩
  have hp := List.find?_some h
  simp only [Bool.and_eq_true, beq_iff_eq] at hp
  exact hp.1

/-- C4: `active_discounts` is keyed by `user_id` (primary key), and
`set_active_discount` preserves that single-row-per-user invariant, returns
`None` and writes nothing whenever the user already holds a reservation whose
`expires_at` is in the future, and otherwise clears any expired reservation
of the user before inserting, leaving the new row as the user's only row —
so at most one (hence at most one non-expired) reservation per user exists at
any instant. -/
theorem claim_C4 (store : DiscountStore) (uid : ℤ) (pc : ℕ)
    (pct expires_at now : ℤ) (hinv : UniqueUserRows store) :
    UniqueUserRows (set_active_discount store uid pc pct expires_at now).1 ∧
      (∀ ex, get_active_discount store uid true now = some ex →
        now < ex.expires_at →
        set_active_discount store uid pc pct expires_at now = (store, none)) ∧
      (∀ row, (set_active_discount store uid pc pct expires_at now).2 = some row →
        ((set_active_discount store uid pc pct expires_at now).1.filter
          (fun r => r.user_id == uid)) = [row]) := by
  cases hget : get_active_discount store uid true now with
  | none =>
    have hnone := get_active_discount_none hget
    have hred : set_active_discount store uid pc pct expires_at now
        = (store ++ [⟨uid, pc, pct, now, expires_at⟩],
           some ⟨uid, pc, pct, now, expires_at⟩) := by
      unfold set_active_discount
      rw [hget]
    refine ⟨?_, ?_, ?_⟩
    · rw [hred]
      unfold UniqueUserRows at hinv ⊢
      rw [List.pairwise_append]
      refine ⟨hinv, by simp, ?_⟩
      intro a ha b hb
      simp only [List.mem_singleton] at hb
      subst hb
      simpa using hnone a ha
    · intro ex hex
      cases hex
    · intro row hrow
      rw [hred] at hrow ⊢
      injection hrow with hrow'
      rw [List.filter_append]
      have h1 : store.filter (fun r => r.user_id == uid) = [] := by
        apply List.filter_eq_nil_iff.mpr
        intro r hr
        simpa using hnone r hr
      rw [h1]
      simp [← hrow']
  | some ex =>
    have hex := get_active_discount_some hget
    by_cases hlive : now < ex.expires_at
    · have hred : set_active_discount store uid pc pct expires_at now = (store, none) := by
        unfold set_active_discount
        rw [hget]
        exact if_pos hlive
      refine ⟨by rw [hred]; exact hinv, fun _ _ _ => hred, ?_⟩
      intro row hrow
      rw [hred] at hrow
      cases hrow
    · have hred : set_active_discount store uid pc pct expires_at now
        = ((clear_active_discount_if_expired store uid now).1
            ++ [⟨uid, pc, pct, now, expires_at⟩],
           some ⟨uid, pc, pct, now, expires_at⟩) := by
        unfold set_active_discount
        rw [hget]
        exact if_neg hlive
      have hcl : ∀ r ∈ (clear_active_discount_if_expired store uid now).1,
          r.user_id ≠ uid := by
        intro r hr hru
        unfold clear_active_discount_if_expired at hr
        simp only [List.mem_filter] at hr
        have hrstore := hr.1
        have hreq : r = ex := uniqueUserRows_eq hinv hrstore hex.1 (hru.trans hex.2.symm)
        subst hreq
        rw [hru] at hr
        simp [not_lt.mp hlive] at hr
      have hsub : (clear_active_discount_if_expired store uid now).1.Sublist store := by
        unfold clear_active_discount_if_expired
        exact List.filter_sublist _
      refine ⟨?_, ?_, ?_⟩
      · rw [hred]
        unfold UniqueUserRows at hinv ⊢
        rw [List.pairwise_append]
        refine ⟨hinv.sublist hsub, by simp, ?_⟩
        intro a ha b hb
        simp only [List.mem_singleton] at hb
        subst hb
        simpa using hcl a ha
      · intro ex2 hex2 hlive2
        injection hex2 with he
        subst he
        exact absurd hlive2 hlive
      · intro row hrow
        rw [hred] at hrow ⊢
        injection hrow with hrow2
        rw [List.filter_append]
        have h1 : (clear_active_discount_if_expired store uid now).1.filter
            (fun r => r.user_id == uid) = [] := by
          apply List.filter_eq_nil_iff.mpr
          intro r hr
          simpa using hcl r hr
        rw [h1]
        simp [← hrow2]

/-- Witness for C4 on a concrete store: user 7 holds a live reservation
(expires at 5, now is 3), so a second redemption writes nothing and returns
`None`, and the invariant is preserved. -/
theorem claim_C4_witness :
    UniqueUserRows ([⟨7, 1, 10, 0, 5⟩] : DiscountStore) ∧
      get_active_discount ([⟨7, 1, 10, 0, 5⟩] : DiscountStore) 7 true 3
        = some ⟨7, 1, 10, 0, 5⟩ ∧
      (3 : ℤ) < 5 ∧
      set_active_discount ([⟨7, 1, 10, 0, 5⟩] : DiscountStore) 7 2 20 13 3
        = ([⟨7, 1, 10, 0, 5⟩], none) := by
  refine ⟨by decide, by decide, by decide, ?_⟩
  exact (claim_C4 [⟨7, 1, 10, 0, 5⟩] 7 2 20 13 3 (by decide)).2.1
    ⟨7, 1, 10, 0, 5⟩ (by decide) (by decide)

/-- Removing a present element via `filter` strictly shrinks the list. -/
theorem filter_length_lt_of_mem {α : Type} {l : List α} {p : α → Bool} {x : α}
    (hx : x ∈ l) (hpx : p x = false) : (l.filter p).length < l.length := by
  induction l with
  | nil => cases hx
  | cons a as ih =>
    rcases List.mem_cons.mp hx with rfl | hx'
    · simp only [List.filter_cons, hpx]
      exact Nat.lt_succ_of_le (List.length_filter_le _ _)
    · by_cases hpa : p a
      · simp only [List.filter_cons, hpa]
        simpa using ih hx'
      · simp only [List.filter_cons]
        rw [if_neg (by simp [hpa])]
        exact Nat.lt_succ_of_lt (ih hx')

/-- A conditional map whose condition fires nowhere is the identity. -/
theorem map_ite_id {α : Type} (l : List α) (cond : α → Bool) (f : α → α)
    (h : l.any cond = false) :
    l.map (fun a => if cond a then f a else a) = l := by
  induction l with
  | nil => rfl
  | cons a as ih =>
    simp only [List.any_cons, Bool.or_eq_false_iff] at h
    simp only [List.map_cons, h.1, ih h.2]
    rw [if_neg (by simp [h.1])]

/-- Kind of a promo code (`bonus_days` vs `discount`). -/
inductive PromoKind
  | bonusDays
  | discount
deriving DecidableEq, Repr

/-- Row of `promo_codes` (the fields the discount subsystem reads). -/
structure PromoCode where
  promo_code_id : ℕ
  code : String
  kind : PromoKind
  discount_percentage : ℤ
  max_activations : ℤ
  current_activations : ℤ
  is_active : Bool
  valid_until : Option ℤ
deriving DecidableEq, Repr

/-- Row of `promo_code_activations`; migration 0001 declares the unique pair
(promo_code_id, user_id). -/
structure PromoActivation where
  promo_code_id : ℕ
  user_id : ℤ
  payment_id : Option ℕ
deriving DecidableEq, Repr

/-- Modelled from the spec: `promo_code_dal.get_promo_code_by_id` (the module
is outside the verified tree) — primary-key lookup. -/
def get_promo_code_by_id (promos : List PromoCode) (pc : ℕ) : Option PromoCode :=
  promos.find? (fun p => p.promo_code_id == pc)

/-- Modelled from the spec:
`promo_code_dal.get_active_discount_promo_code_by_code_str` — "look up an
active promo by normalized code and kind", honoring the validity window and
active flag (spec 4.3). -/
def get_active_discount_promo_code_by_code_str (promos : List PromoCode)
    (code : String) (now : ℤ) : Option PromoCode :=
  promos.find? (fun p =>
    p.code == code && (p.kind == PromoKind.discount) && p.is_active
      && (match p.valid_until with
          | some t => decide (now < t)
          | none => true))

/-- Modelled from the spec: `promo_code_dal.get_user_activation_for_promo` —
lookup of the unique (promo, user) activation row. -/
def get_user_activation_for_promo (acts : List PromoActivation) (pc : ℕ)
    (uid : ℤ) : Option PromoActivation :=
  acts.find? (fun a => a.promo_code_id == pc && a.user_id == uid)

/-- Modelled from the spec: `promo_code_dal.record_promo_activation` —
"record a one-per-user activation (fails/no-ops if already present, enforced
by the unique pair constraint)" (spec 4.3). -/
def record_promo_activation (acts : List PromoActivation) (pc : ℕ) (uid : ℤ)
    (payment_id : Option ℕ) : List PromoActivation × Bool :=
  match get_user_activation_for_promo acts pc uid with
  | some _ => (acts, false)
  | none => (acts ++ [⟨pc, uid, payment_id⟩], true)

/-- Modelled from the spec: `promo_code_dal.set_activation_payment_id` —
links the payment into the user's activation row for the promo when that row
has no payment yet ("links, if an activation row already exists without a
payment id"); affected-row-count is the success signal. -/
def set_activation_payment_id (acts : List PromoActivation) (pc : ℕ) (uid : ℤ)
    (payment_id : ℕ) : List PromoActivation × Bool :=
  let cond := fun (a : PromoActivation) =>
    a.promo_code_id == pc && a.user_id == uid && a.payment_id == none
  (acts.map (fun a => if cond a then { a with payment_id := some payment_id } else a),
    acts.any cond)

/-- Modelled from the spec: `promo_code_dal.increment_promo_code_usage` —
"atomically increment usage count, refusing to exceed `max_activations`
unless an explicit allow-overflow reconciliation flag is passed" (spec 4.3);
a single conditional UPDATE whose affected-row-count is the success signal. -/
def increment_promo_code_usage (promos : List PromoCode) (pc : ℕ)
    (allow_overflow : Bool) : List PromoCode × Bool :=
  let cond := fun (p : PromoCode) =>
    p.promo_code_id == pc
      && (allow_overflow || decide (p.current_activations < p.max_activations))
  (promos.map (fun p =>
      if cond p then { p with current_activations := p.current_activations + 1 } else p),
    promos.any cond)

/-- Modelled from the spec: `promo_code_dal.decrement_promo_code_usage` —
"atomically decrement usage count on expiry/cancellation (floored at zero)"
(spec 4.3). -/
def decrement_promo_code_usage (promos : List PromoCode) (pc : ℕ) :
    List PromoCode × Bool :=
  (promos.map (fun p =>
      if p.promo_code_id == pc
      then { p with current_activations := max 0 (p.current_activations - 1) }
      else p),
    promos.any (fun p => p.promo_code_id == pc))

/-- The discount-subsystem tables inside one session. -/
structure PromoState where
  discounts : DiscountStore
  promos : List PromoCode
  activations : List PromoActivation
deriving DecidableEq, Repr

/-- Message outcomes of `apply_discount_promo_code`, one constructor per
i18n key returned by the source; the over-capacity increment failure reuses
the `promo_code_not_found_or_not_discount` key (line 293). -/
inductive ApplyDiscountOutcome
  | alreadyActive (code : String) (pct : ℤ)
  | notFoundOrNotDiscount
  | alreadyUsedByUser
  | errorApplyingDiscount
  | ok (pct : ℤ)
deriving DecidableEq, Repr

/-- First phase of `apply_discount_promo_code` (promo_code_service.py lines
218-237): read the user's reservation including expired ones; when it has
already expired, clear it conditionally and, if the delete removed it,
decrement its promo's usage counter; the reservation survives the phase only
when still live. -/
def clearExpiredReservationPhase (st : PromoState) (uid now : ℤ) :
    PromoState × Option ActiveDiscountRow :=
  match get_active_discount st.discounts uid true now with
  | none => (st, none)
  | some existing =>
    if existing.expires_at ≤ now then
      let cleared := clear_active_discount_if_expired st.discounts uid now
      let p1 :=
        if cleared.2 then (decrement_promo_code_usage st.promos existing.promo_code_id).1
        else st.promos
      ({ st with discounts := cleared.1, promos := p1 }, none)
    else (st, some existing)

/-- Continuation of `apply_discount_promo_code` after the existing-reservation
checks (promo_code_service.py lines 252-299): look up the code, reject reuse,
reserve, then count the activation, retracting the reservation when the
counter refuses. -/
def applyDiscountAfterChecks (st : PromoState) (uid : ℤ) (code : String)
    (now timeout : ℤ) : PromoState × ApplyDiscountOutcome :=
  match get_active_discount_promo_code_by_code_str st.promos code now with
  | none => (st, ApplyDiscountOutcome.notFoundOrNotDiscount)
  | some promo_data =>
    match get_user_activation_for_promo st.activations promo_data.promo_code_id uid with
    | some _ => (st, ApplyDiscountOutcome.alreadyUsedByUser)
    | none =>
      let expires_at := now + timeout
      let setres := set_active_discount st.discounts uid promo_data.promo_code_id
        promo_data.discount_percentage expires_at now
      match setres.2 with
      | none => ({ st with discounts := setres.1 }, ApplyDiscountOutcome.errorApplyingDiscount)
      | some _ =>
        let incres := increment_promo_code_usage st.promos promo_data.promo_code_id false
        if incres.2 then
          ({ st with discounts := setres.1, promos := incres.1 },
            ApplyDiscountOutcome.ok promo_data.discount_percentage)
        else
          let retracted := clear_active_discount_if_matches setres.1 uid
            (some promo_data.promo_code_id) none
          ({ st with discounts := retracted.1, promos := incres.1 },
            ApplyDiscountOutcome.notFoundOrNotDiscount)

/-- Transcribed from `PromoCodeService.apply_discount_promo_code`
(promo_code_service.py lines 204-299); the lookup key is assumed already
normalized (`strip().upper()` only affects the code string compared). -/
def apply_discount_promo_code (st : PromoState) (uid : ℤ) (code : String)
    (now timeout : ℤ) : PromoState × ApplyDiscountOutcome :=
  let phase := clearExpiredReservationPhase st uid now
  match phase.2 with
  | some ex =>
    match get_promo_code_by_id phase.1.promos ex.promo_code_id with
    | some p => (phase.1, ApplyDiscountOutcome.alreadyActive p.code ex.discount_percentage)
    | none =>
      let d2 := (clear_active_discount phase.1.discounts uid).1
      applyDiscountAfterChecks { phase.1 with discounts := d2 } uid code now timeout
  | none => applyDiscountAfterChecks phase.1 uid code now timeout

/-- The clear-expired phase never touches the activations table. -/
theorem clearExpiredReservationPhase_activations (st : PromoState) (uid now : ℤ) :
    (clearExpiredReservationPhase st uid now).1.activations = st.activations := by
  unfold clearExpiredReservationPhase
  cases get_active_discount st.discounts uid true now with
  | none => rfl
  | some ex =>
    dsimp only
    by_cases h : ex.expires_at ≤ now
    · rw [if_pos h]
    · rw [if_neg h]

/-- When the clear-expired phase reports no surviving reservation, the user
has no reservation row left at all (uses the primary-key invariant). -/
theorem clearExpiredReservationPhase_none_no_row (st : PromoState) (uid now : ℤ)
    (hinv : UniqueUserRows st.discounts)
    (h : (clearExpiredReservationPhase st uid now).2 = none) :
    ∀ r ∈ (clearExpiredReservationPhase st uid now).1.discounts, r.user_id ≠ uid := by
  unfold clearExpiredReservationPhase at h ⊢
  cases hget : get_active_discount st.discounts uid true now with
  | none =>
    intro r hr
    exact get_active_discount_none hget r hr
  | some ex =>
    dsimp only at h ⊢
    have hexm := get_active_discount_some hget
    by_cases hexp : ex.expires_at ≤ now
    · rw [if_pos hexp]
      intro r hr hru
      simp only [clear_active_discount_if_expired, List.mem_filter] at hr
      have hreq : r = ex := uniqueUserRows_eq hinv hr.1 hexm.1 (hru.trans hexm.2.symm)
      subst hreq
      rw [hru] at hr
      simp [hexp] at hr
    · rw [hget] at h
      dsimp only at h
      rw [if_neg hexp] at h
      cases h

/-- C5: `apply_discount_promo_code` (a) rejects a user holding a live
reservation, reporting the existing code and percentage and leaving every
table untouched; (b) clears an expired reservation and decrements that
promo's usage counter before the new reservation is considered; and (c) when
the usage-counter increment for the new reservation fails, retracts the
just-created reservation by matching user and promo code, reports an error,
and leaves the promo counters and the activations table unchanged — so no
reservation exists without a matching counted activation. -/
theorem claim_C5 (st : PromoState) (uid : ℤ) (code : String) (now timeout : ℤ)
    (hinv : UniqueUserRows st.discounts) :
    (∀ ex p, get_active_discount st.discounts uid true now = some ex →
      now < ex.expires_at →
      get_promo_code_by_id st.promos ex.promo_code_id = some p →
      apply_discount_promo_code st uid code now timeout
        = (st, ApplyDiscountOutcome.alreadyActive p.code ex.discount_percentage)) ∧
      (∀ ex, get_active_discount st.discounts uid true now = some ex →
        ex.expires_at ≤ now →
        (clearExpiredReservationPhase st uid now).2 = none ∧
          (∀ r ∈ (clearExpiredReservationPhase st uid now).1.discounts,
            r.user_id ≠ uid) ∧
          (clearExpiredReservationPhase st uid now).1.promos
            = (decrement_promo_code_usage st.promos ex.promo_code_id).1) ∧
      (∀ promo_data,
        (clearExpiredReservationPhase st uid now).2 = none →
        get_active_discount_promo_code_by_code_str
          (clearExpiredReservationPhase st uid now).1.promos code now = some promo_data →
        get_user_activation_for_promo
          (clearExpiredReservationPhase st uid now).1.activations
          promo_data.promo_code_id uid = none →
        (increment_promo_code_usage (clearExpiredReservationPhase st uid now).1.promos
          promo_data.promo_code_id false).2 = false →
        (apply_discount_promo_code st uid code now timeout).2
            = ApplyDiscountOutcome.notFoundOrNotDiscount ∧
          (∀ r ∈ (apply_discount_promo_code st uid code now timeout).1.discounts,
            ¬(r.user_id = uid ∧ r.promo_code_id = promo_data.promo_code_id)) ∧
          (apply_discount_promo_code st uid code now timeout).1.promos
            = (clearExpiredReservationPhase st uid now).1.promos ∧
          (apply_discount_promo_code st uid code now timeout).1.activations
            = st.activations) := by
  refine ⟨?_, ?_, ?_⟩
  · -- (a) live reservation
    intro ex p hget hlive hp
    have hphase : clearExpiredReservationPhase st uid now = (st, some ex) := by
      unfold clearExpiredReservationPhase
      rw [hget]
      dsimp only
      rw [if_neg (not_le.mpr hlive)]
    simp only [apply_discount_promo_code, hphase, hp]
  · -- (b) expired reservation
    intro ex hget hexp
    have hexm := get_active_discount_some hget
    have hlt : ((clear_active_discount_if_expired st.discounts uid now).1).length
        < st.discounts.length := by
      simp only [clear_active_discount_if_expired]
      exact filter_length_lt_of_mem hexm.1 (by simp [hexm.2, hexp])
    have hcl2 : (clear_active_discount_if_expired st.discounts uid now).2 = true := by
      simp only [clear_active_discount_if_expired] at hlt ⊢
      simpa using hlt
    have hphase : clearExpiredReservationPhase st uid now
        = ({ st with
              discounts := (clear_active_discount_if_expired st.discounts uid now).1,
              promos := (decrement_promo_code_usage st.promos ex.promo_code_id).1 },
           none) := by
      unfold clearExpiredReservationPhase
      rw [hget]
      dsimp only
      rw [if_pos hexp, hcl2]
      simp only [if_true]
    refine ⟨by rw [hphase], ?_, by rw [hphase]⟩
    intro r hr hru
    rw [hphase] at hr
    simp only [clear_active_discount_if_expired, List.mem_filter] at hr
    have hreq : r = ex := uniqueUserRows_eq hinv hr.1 hexm.1 (hru.trans hexm.2.symm)
    subst hreq
    rw [hru] at hr
    simp [hexp] at hr
  · -- (c) increment failure retraction
    intro promo_data hnone hfound hnoact hincfail
    have hnorow := clearExpiredReservationPhase_none_no_row st uid now hinv hnone
    have hred : apply_discount_promo_code st uid code now timeout
        = applyDiscountAfterChecks (clearExpiredReservationPhase st uid now).1
            uid code now timeout := by
      simp only [apply_discount_promo_code, hnone]
    have hget1 : get_active_discount
        (clearExpiredReservationPhase st uid now).1.discounts uid true now = none := by
      apply List.find?_eq_none.mpr
      intro r hr
      simpa using hnorow r hr
    have hsetred : (set_active_discount
        (clearExpiredReservationPhase st uid now).1.discounts uid
        promo_data.promo_code_id promo_data.discount_percentage (now + timeout) now)
        = ((clearExpiredReservationPhase st uid now).1.discounts
            ++ [⟨uid, promo_data.promo_code_id, promo_data.discount_percentage,
                 now, now + timeout⟩],
           some ⟨uid, promo_data.promo_code_id, promo_data.discount_percentage,
                 now, now + timeout⟩) := by
      unfold set_active_discount
      rw [hget1]
    have hafter : applyDiscountAfterChecks (clearExpiredReservationPhase st uid now).1
        uid code now timeout
        = ({ (clearExpiredReservationPhase st uid now).1 with
              discounts := (clear_active_discount_if_matches
                ((clearExpiredReservationPhase st uid now).1.discounts
                  ++ [⟨uid, promo_data.promo_code_id, promo_data.discount_percentage,
                       now, now + timeout⟩]) uid (some promo_data.promo_code_id) none).1,
              promos := (increment_promo_code_usage
                (clearExpiredReservationPhase st uid now).1.promos
                promo_data.promo_code_id false).1 },
           ApplyDiscountOutcome.notFoundOrNotDiscount) := by
      simp only [applyDiscountAfterChecks, hfound, hnoact, hsetred, hincfail,
        Bool.false_eq_true, if_false]
    have hincid : (increment_promo_code_usage
        (clearExpiredReservationPhase st uid now).1.promos
        promo_data.promo_code_id false).1
        = (clearExpiredReservationPhase st uid now).1.promos := by
      simp only [increment_promo_code_usage] at hincfail ⊢
      exact map_ite_id _ _ _ hincfail
    rw [hred, hafter]
    refine ⟨rfl, ?_, hincid, clearExpiredReservationPhase_activations st uid now⟩
    intro r hr hcond
    simp only [clear_active_discount_if_matches, matchesConstraints, List.mem_filter] at hr
    rw [hcond.1, hcond.2] at hr
    simp at hr

/-- Code string of the witness promo. -/
def save10 : String := "SAVE10"

/-- Witness promo: a discount code at capacity (1 of max 1 activations). -/
def c5Promo : PromoCode := ⟨1, save10, PromoKind.discount, 10, 1, 1, true, none⟩

/-- Witness state for C5: no reservations, one full promo, no activations. -/
def c5State : PromoState := ⟨[], [c5Promo], []⟩

/-- Witness for C5: redeeming `SAVE10` when its counter is at capacity
reports the not-found/not-discount error, leaves the counter and activations
untouched, and leaves no reservation behind. -/
theorem claim_C5_witness :
    UniqueUserRows c5State.discounts ∧
      (clearExpiredReservationPhase c5State 7 0).2 = none ∧
      get_active_discount_promo_code_by_code_str
        (clearExpiredReservationPhase c5State 7 0).1.promos save10 0 = some c5Promo ∧
      get_user_activation_for_promo (clearExpiredReservationPhase c5State 7 0).1.activations
        c5Promo.promo_code_id 7 = none ∧
      (increment_promo_code_usage (clearExpiredReservationPhase c5State 7 0).1.promos
        c5Promo.promo_code_id false).2 = false ∧
      (apply_discount_promo_code c5State 7 save10 0 10).2
        = ApplyDiscountOutcome.notFoundOrNotDiscount ∧
      (apply_discount_promo_code c5State 7 save10 0 10).1.promos
        = (clearExpiredReservationPhase c5State 7 0).1.promos ∧
      (apply_discount_promo_code c5State 7 save10 0 10).1.activations
        = c5State.activations := by
  have h := (claim_C5 c5State 7 save10 0 10 (by decide)).2.2 c5Promo
    (by decide) (by decide) (by decide) (by decide)
  exact ⟨by decide, by decide, by decide, by decide, by decide,
    h.1, h.2.2.1, h.2.2.2⟩

/-- Python float truthiness for an optional numeric column: `None` and `0`
are falsy. -/
def pyTruthyQ : Option ℚ → Bool
  | none => false
  | some q => decide (q ≠ 0)

/-- Row of `payments` (the fields the verified flows read or write);
monetary floats are idealized as rationals. -/
structure Payment where
  payment_id : ℕ
  user_id : ℤ
  status : String
  provider_payment_id : Option String
  amount : ℚ
  currency : String
  original_amount : Option ℚ
  discount_applied : Option ℚ
  promo_code_id : Option ℕ
deriving DecidableEq, Repr

/-- Modelled from the spec: `payment_dal.get_payment_by_db_id` (module outside
the verified tree) — primary-key lookup of a payment row. -/
def get_payment_by_db_id (payments : List Payment) (pid : ℕ) : Option Payment :=
  payments.find? (fun p => p.payment_id == pid)

/-- Tail of `consume_discount` (promo_code_service.py lines 441-484): clear
the reservation only when it still references the same promo code, and
restore the usage counter through the allow-overflow increment exactly when
this consumption had to create the activation row. -/
def consumeClearPhase (st : PromoState) (uid now : ℤ) (promo_code_id : ℕ)
    (activation_created : Bool) : PromoState × Bool :=
  let active := get_active_discount st.discounts uid true now
  let d1 :=
    match active with
    | some ad =>
      if ad.promo_code_id == promo_code_id then
        (clear_active_discount_if_matches st.discounts uid (some promo_code_id) none).1
      else st.discounts
    | none => st.discounts
  let p1 :=
    if activation_created then (increment_promo_code_usage st.promos promo_code_id true).1
    else st.promos
  ({ st with discounts := d1, promos := p1 }, true)

/-- Transcribed from `PromoCodeService.consume_discount`
(promo_code_service.py lines 374-484): the payment row is authoritative; an
existing activation row with no payment id is linked, a missing one is
created, and the reservation / counter reconciliation is delegated to
`consumeClearPhase`. -/
def consume_discount (st : PromoState) (payments : List Payment) (uid : ℤ)
    (payment_id : ℕ) (now : ℤ) : PromoState × Bool :=
  match get_payment_by_db_id payments payment_id with
  | none => (st, false)
  | some payment_record =>
    if !(pyTruthyQ payment_record.discount_applied) then (st, false)
    else
      match payment_record.promo_code_id with
      | none => (st, false)
      | some promo_code_id =>
        match get_user_activation_for_promo st.activations promo_code_id uid with
        | some existing_activation =>
          let acts1 :=
            if existing_activation.payment_id == none then
              (set_activation_payment_id st.activations promo_code_id uid payment_id).1
            else st.activations
          consumeClearPhase { st with activations := acts1 } uid now promo_code_id false
        | none =>
          let recres := record_promo_activation st.activations promo_code_id uid (some payment_id)
          if !recres.2 then (st, false)
          else consumeClearPhase { st with activations := recres.1 } uid now promo_code_id true

theorem consumeClearPhase_snd (st : PromoState) (uid now : ℤ) (pc : ℕ) (b : Bool) :
    (consumeClearPhase st uid now pc b).2 = true := rfl

theorem consumeClearPhase_acts (st : PromoState) (uid now : ℤ) (pc : ℕ) (b : Bool) :
    (consumeClearPhase st uid now pc b).1.activations = st.activations := rfl

theorem consumeClearPhase_promos_true (st : PromoState) (uid now : ℤ) (pc : ℕ) :
    (consumeClearPhase st uid now pc true).1.promos
      = (increment_promo_code_usage st.promos pc true).1 := rfl

theorem consumeClearPhase_promos_false (st : PromoState) (uid now : ℤ) (pc : ℕ) :
    (consumeClearPhase st uid now pc false).1.promos = st.promos := rfl

theorem consumeClearPhase_discounts_same (st : PromoState) (uid now : ℤ)
    (pc : ℕ) (b : Bool) (ad : ActiveDiscountRow)
    (h : get_active_discount st.discounts uid true now = some ad)
    (had : ad.promo_code_id = pc) :
    (consumeClearPhase st uid now pc b).1.discounts
      = (clear_active_discount_if_matches st.discounts uid (some pc) none).1 := by
  simp only [consumeClearPhase, h, had]
  rw [if_pos (by simp)]

theorem consumeClearPhase_discounts_other (st : PromoState) (uid now : ℤ)
    (pc : ℕ) (b : Bool) (ad : ActiveDiscountRow)
    (h : get_active_discount st.discounts uid true now = some ad)
    (had : ad.promo_code_id ≠ pc) :
    (consumeClearPhase st uid now pc b).1.discounts = st.discounts := by
  simp only [consumeClearPhase, h]
  rw [if_neg (by simpa using had)]

theorem consumeClearPhase_discounts_absent (st : PromoState) (uid now : ℤ)
    (pc : ℕ) (b : Bool)
    (h : get_active_discount st.discounts uid true now = none) :
    (consumeClearPhase st uid now pc b).1.discounts = st.discounts := by
  simp only [consumeClearPhase, h]

/-- C6: on a payment whose row shows an applied discount with a promo code,
`consume_discount` succeeds; a missing activation row is created carrying the
payment id (and exactly then the usage counter is restored through the
allow-overflow increment), an existing row without a payment id is linked,
an existing row with a payment id is left as is; and the reservation is
cleared precisely when it still references the same promo code — a
mismatched or absent reservation is left untouched. -/
theorem claim_C6 (st : PromoState) (payments : List Payment) (uid : ℤ)
    (payment_id : ℕ) (now : ℤ) (pr : Payment) (pc : ℕ)
    (hpay : get_payment_by_db_id payments payment_id = some pr)
    (hdisc : pyTruthyQ pr.discount_applied = true)
    (hpc : pr.promo_code_id = some pc) :
    (consume_discount st payments uid payment_id now).2 = true ∧
      (get_user_activation_for_promo st.activations pc uid = none →
        (consume_discount st payments uid payment_id now).1.activations
            = st.activations ++ [⟨pc, uid, some payment_id⟩] ∧
          (consume_discount st payments uid payment_id now).1.promos
            = (increment_promo_code_usage st.promos pc true).1) ∧
      (∀ a, get_user_activation_for_promo st.activations pc uid = some a →
        a.payment_id = none →
        (consume_discount st payments uid payment_id now).1.activations
            = (set_activation_payment_id st.activations pc uid payment_id).1 ∧
          (consume_discount st payments uid payment_id now).1.promos = st.promos) ∧
      (∀ a q, get_user_activation_for_promo st.activations pc uid = some a →
        a.payment_id = some q →
        (consume_discount st payments uid payment_id now).1.activations = st.activations ∧
          (consume_discount st payments uid payment_id now).1.promos = st.promos) ∧
      (∀ ad, get_active_discount st.discounts uid true now = some ad →
        ad.promo_code_id = pc →
        (consume_discount st payments uid payment_id now).1.discounts
          = (clear_active_discount_if_matches st.discounts uid (some pc) none).1) ∧
      (∀ ad, get_active_discount st.discounts uid true now = some ad →
        ad.promo_code_id ≠ pc →
        (consume_discount st payments uid payment_id now).1.discounts = st.discounts) ∧
      (get_active_discount st.discounts uid true now = none →
        (consume_discount st payments uid payment_id now).1.discounts = st.discounts) := by
  cases hact : get_user_activation_for_promo st.activations pc uid with
  | none =>
    have hrec : record_promo_activation st.activations pc uid (some payment_id)
        = (st.activations ++ [⟨pc, uid, some payment_id⟩], true) := by
      unfold record_promo_activation
      rw [hact]
    have hred : consume_discount st payments uid payment_id now
        = consumeClearPhase
            { st with activations := st.activations ++ [⟨pc, uid, some payment_id⟩] }
            uid now pc true := by
      simp only [consume_discount, hpay, hdisc, hpc, hact, hrec, Bool.not_true,
        Bool.false_eq_true, if_false]
    rw [hred]
    refine ⟨consumeClearPhase_snd _ _ _ _ _, ?_, ?_, ?_, ?_, ?_, ?_⟩
    · intro _
      exact ⟨consumeClearPhase_acts _ _ _ _ _, consumeClearPhase_promos_true _ _ _ _⟩
    · intro a ha
      cases ha
    · intro a q ha
      cases ha
    · intro ad had hadpc
      exact consumeClearPhase_discounts_same _ _ _ _ _ ad had hadpc
    · intro ad had hadpc
      exact consumeClearPhase_discounts_other _ _ _ _ _ ad had hadpc
    · intro habs
      exact consumeClearPhase_discounts_absent _ _ _ _ _ habs
  | some a0 =>
    cases hapay : a0.payment_id with
    | none =>
      have hred : consume_discount st payments uid payment_id now
          = consumeClearPhase
              { st with activations :=
                  (set_activation_payment_id st.activations pc uid payment_id).1 }
              uid now pc false := by
        simp only [consume_discount, hpay, hdisc, hpc, hact, hapay, Bool.not_true,
          Bool.false_eq_true, if_false, beq_self_eq_true, if_true]
      rw [hred]
      refine ⟨consumeClearPhase_snd _ _ _ _ _, ?_, ?_, ?_, ?_, ?_, ?_⟩
      · intro h
        cases h
      · intro a ha hap
        injection ha with ha'
        subst ha'
        exact ⟨consumeClearPhase_acts _ _ _ _ _, consumeClearPhase_promos_false _ _ _ _⟩
      · intro a q ha hap
        injection ha with ha'
        subst ha'
        rw [hapay] at hap
        cases hap
      · intro ad had hadpc
        exact consumeClearPhase_discounts_same _ _ _ _ _ ad had hadpc
      · intro ad had hadpc
        exact consumeClearPhase_discounts_other _ _ _ _ _ ad had hadpc
      · intro habs
        exact consumeClearPhase_discounts_absent _ _ _ _ _ habs
    | some q0 =>
      have hred : consume_discount st payments uid payment_id now
          = consumeClearPhase st uid now pc false := by
        simp only [consume_discount, hpay, hdisc, hpc, hact, hapay, Bool.not_true,
          Bool.false_eq_true, if_false,
          show (some q0 == (none : Option ℕ)) = false from rfl]
      rw [hred]
      refine ⟨consumeClearPhase_snd _ _ _ _ _, ?_, ?_, ?_, ?_, ?_, ?_⟩
      · intro h
        cases h
      · intro a ha hap
        injection ha with ha'
        subst ha'
        rw [hapay] at hap
        cases hap
      · intro a q ha hap
        exact ⟨consumeClearPhase_acts _ _ _ _ _, consumeClearPhase_promos_false _ _ _ _⟩
      · intro ad had hadpc
        exact consumeClearPhase_discounts_same _ _ _ _ _ ad had hadpc
      · intro ad had hadpc
        exact consumeClearPhase_discounts_other _ _ _ _ _ ad had hadpc
      · intro habs
        exact consumeClearPhase_discounts_absent _ _ _ _ _ habs

/-- Witness payment for C6: discounted successful payment of user 7. -/
def c6Pay : Payment :=
  ⟨42, 7, succeededStatus, none, 90, "RUB", some 100, some 10, some 1⟩

/-- Witness state for C6: user 7 still holds the matching reservation, the
promo exists, and no activation row exists yet. -/
def c6State : PromoState :=
  ⟨[⟨7, 1, 10, 0, 5⟩], [⟨1, "C6CODE", PromoKind.discount, 10, 5, 0, true, none⟩], []⟩

/-- Witness for C6: consuming the discount of payment 42 records the
activation with the payment id, restores the counter via allow-overflow, and
clears the matching reservation. -/
theorem claim_C6_witness :
    get_payment_by_db_id [c6Pay] 42 = some c6Pay ∧
      pyTruthyQ c6Pay.discount_applied = true ∧
      c6Pay.promo_code_id = some 1 ∧
      (consume_discount c6State [c6Pay] 7 42 0).2 = true ∧
      (consume_discount c6State [c6Pay] 7 42 0).1.activations
        = c6State.activations ++ [⟨1, 7, some 42⟩] ∧
      (consume_discount c6State [c6Pay] 7 42 0).1.promos
        = (increment_promo_code_usage c6State.promos 1 true).1 ∧
      (consume_discount c6State [c6Pay] 7 42 0).1.discounts
        = (clear_active_discount_if_matches c6State.discounts 7 (some 1) none).1 := by
  have h := claim_C6 c6State [c6Pay] 7 42 0 c6Pay 1 (by decide) (by decide) (by decide)
  have hcreate := h.2.1 (by decide)
  have hclear := h.2.2.2.2.1 ⟨7, 1, 10, 0, 5⟩ (by decide) (by decide)
  exact ⟨by decide, by decide, by decide, h.1, hcreate.1, hcreate.2, hclear⟩

/-- Filtering away the matching rows never grows the list, and counts add up:
kept rows plus matching rows make the whole list. -/
theorem length_filter_not_add_countP {α : Type} (l : List α) (p : α → Bool) :
    (l.filter (fun a => !(p a))).length + l.countP p = l.length := by
  induction l with
  | nil => rfl
  | cons a as ih =>
    by_cases hpa : p a
    · simp [List.filter_cons, List.countP_cons, hpa]
      omega
    · simp [List.filter_cons, List.countP_cons, hpa]
      omega

/-- Under the per-user primary key, at most one row satisfies a predicate
that pins the user id. -/
theorem countP_le_one_of_user {d : DiscountStore} {uid : ℤ}
    {cond : ActiveDiscountRow → Bool}
    (hcond : ∀ r, cond r = true → r.user_id = uid) (hinv : UniqueUserRows d) :
    d.countP cond ≤ 1 := by
  induction d with
  | nil => simp
  | cons x xs ih =>
    rcases List.pairwise_cons.mp hinv with ⟨hx, hxs⟩
    by_cases hcx : cond x
    · have hzero : xs.countP cond = 0 := by
        rw [List.countP_eq_zero]
        intro a ha hca
        exact hx a ha ((hcond x hcx).trans (hcond a hca).symm)
      simp [List.countP_cons, hcx, hzero]
    · have hih := ih hxs
      simp [List.countP_cons, hcx]
      omega

/-- A failed conditional delete leaves the store untouched; a successful one
removes exactly one row when the store respects the primary key (the delete's
condition pins the user id). -/
theorem clear_if_matches_card (d : DiscountStore) (uid : ℤ) (pc : Option ℕ)
    (lte : Option ℤ) (hinv : UniqueUserRows d) :
    ((clear_active_discount_if_matches d uid pc lte).2 = false →
        (clear_active_discount_if_matches d uid pc lte).1 = d) ∧
      ((clear_active_discount_if_matches d uid pc lte).2 = true →
        (clear_active_discount_if_matches d uid pc lte).1.length + 1 = d.length) ∧
      UniqueUserRows (clear_active_discount_if_matches d uid pc lte).1 := by
  have hcond : ∀ r, matchesConstraints uid pc lte r = true → r.user_id = uid := by
    intro r hr
    simp only [matchesConstraints, Bool.and_eq_true, beq_iff_eq] at hr
    exact hr.1.1
  have hcount := length_filter_not_add_countP d (matchesConstraints uid pc lte)
  have hle1 := countP_le_one_of_user hcond hinv
  have h1 : (clear_active_discount_if_matches d uid pc lte).1
      = d.filter (fun a => !(matchesConstraints uid pc lte a)) := rfl
  have h2 : (clear_active_discount_if_matches d uid pc lte).2
      = decide ((d.filter (fun a => !(matchesConstraints uid pc lte a))).length
          < d.length) := rfl
  refine ⟨?_, ?_, ?_⟩
  · intro hf
    rw [h2] at hf
    have hnl := of_decide_eq_false hf
    rw [h1]
    exact (List.filter_sublist _).eq_of_length
      (le_antisymm (List.filter_sublist _).length_le (not_lt.mp hnl))
  · intro ht
    rw [h2] at ht
    have hlt := of_decide_eq_true ht
    rw [h1]
    omega
  · rw [h1]
    exact hinv.sublist (List.filter_sublist _)

/-- Ordered insertion by `expires_at` (models `ORDER BY expires_at ASC`). -/
def insertByExpiry (r : ActiveDiscountRow) : DiscountStore → DiscountStore
  | [] => [r]
  | x :: xs =>
    if r.expires_at ≤ x.expires_at then r :: x :: xs else x :: insertByExpiry r xs

/-- Insertion sort by `expires_at`. -/
def sortByExpiry : DiscountStore → DiscountStore
  | [] => []
  | x :: xs => insertByExpiry x (sortByExpiry xs)

/-- Transcribed from `active_discount_dal.get_expired_active_discounts`
(lines 132-146): the expired rows, oldest expiry first, bounded batch. -/
def get_expired_active_discounts (store : DiscountStore) (now : ℤ)
    (limit : ℕ) : List ActiveDiscountRow :=
  (sortByExpiry (store.filter (fun r => decide (r.expires_at ≤ now)))).take limit

theorem mem_insertByExpiry {r a : ActiveDiscountRow} {l : DiscountStore} :
    a ∈ insertByExpiry r l ↔ a = r ∨ a ∈ l := by
  induction l with
  | nil => simp [insertByExpiry]
  | cons x xs ih =>
    unfold insertByExpiry
    by_cases h : r.expires_at ≤ x.expires_at
    · rw [if_pos h]
      simp
    · rw [if_neg h]
      simp only [List.mem_cons, ih]
      tauto

theorem mem_sortByExpiry {a : ActiveDiscountRow} {l : DiscountStore} :
    a ∈ sortByExpiry l ↔ a ∈ l := by
  induction l with
  | nil => simp [sortByExpiry]
  | cons x xs ih =>
    unfold sortByExpiry
    rw [mem_insertByExpiry]
    simp [ih]

theorem pairwise_insertByExpiry {r : ActiveDiscountRow} {l : DiscountStore}
    (h : l.Pairwise (fun a b => a.expires_at ≤ b.expires_at)) :
    (insertByExpiry r l).Pairwise (fun a b => a.expires_at ≤ b.expires_at) := by
  induction l with
  | nil => simp [insertByExpiry]
  | cons x xs ih =>
    rcases List.pairwise_cons.mp h with ⟨hx, hxs⟩
    unfold insertByExpiry
    by_cases hle : r.expires_at ≤ x.expires_at
    · rw [if_pos hle]
      refine List.pairwise_cons.mpr ⟨?_, h⟩
      intro b hb
      rcases List.mem_cons.mp hb with rfl | hb'
      · exact hle
      · exact le_trans hle (hx b hb')
    · rw [if_neg hle]
      refine List.pairwise_cons.mpr ⟨?_, ih hxs⟩
      intro b hb
      rcases mem_insertByExpiry.mp hb with rfl | hb'
      · omega
      · exact hx b hb'

theorem pairwise_sortByExpiry (l : DiscountStore) :
    (sortByExpiry l).Pairwise (fun a b => a.expires_at ≤ b.expires_at) := by
  induction l with
  | nil => simp [sortByExpiry]
  | cons x xs ih => exact pairwise_insertByExpiry ih

/-- Observable events of one sweeper pass. -/
inductive SweepEv
  | cleared (uid : ℤ) (pc : ℕ) (ok : Bool)
  | decremented (pc : ℕ)
  | queuedNotify (uid : ℤ)
  | committed
  | sentNotify (uid : ℤ)
deriving DecidableEq, Repr

/-- The per-candidate loop of `_process_expired_discounts_once`
(promo_code_service.py lines 95-128): an atomic conditional delete keyed on
user, promo code and expiry-at-or-before-now; only when the delete removed a
row are the decrement and the notification queueing performed.  Returns the
store, the promo table, the queued notifications and the event trace. -/
def sweepLoop (cands : List ActiveDiscountRow) (d : DiscountStore)
    (promos : List PromoCode) (now : ℤ) :
    DiscountStore × List PromoCode × List ℤ × List SweepEv :=
  match cands with
  | [] => (d, promos, [], [])
  | c :: rest =>
    let cl := clear_active_discount_if_matches d c.user_id (some c.promo_code_id) (some now)
    if cl.2 then
      let p1 := (decrement_promo_code_usage promos c.promo_code_id).1
      let r := sweepLoop rest cl.1 p1 now
      (r.1, r.2.1, c.user_id :: r.2.2.1,
        SweepEv.cleared c.user_id c.promo_code_id true
          :: SweepEv.decremented c.promo_code_id
          :: SweepEv.queuedNotify c.user_id :: r.2.2.2)
    else
      let r := sweepLoop rest cl.1 promos now
      (r.1, r.2.1, r.2.2.1,
        SweepEv.cleared c.user_id c.promo_code_id false :: r.2.2.2)

/-- Transcribed from `PromoCodeService._process_expired_discounts_once`
(promo_code_service.py lines 79-143): select at most 100 expired
reservations oldest-first, run the conditional-delete loop, commit the batch,
then send the queued notifications. -/
def process_expired_discounts_once (d : DiscountStore)
    (promos : List PromoCode) (now : ℤ) :
    DiscountStore × List PromoCode × List ℤ × List SweepEv :=
  let r := sweepLoop (get_expired_active_discounts d now 100) d promos now
  (r.1, r.2.1, r.2.2.1,
    r.2.2.2 ++ [SweepEv.committed] ++ r.2.2.1.map SweepEv.sentNotify)

/-- Recognizer for decrement events. -/
def isDecrementEv : SweepEv → Bool
  | SweepEv.decremented _ => true
  | _ => false

@[simp] theorem isDecrementEv_cleared (u : ℤ) (pc : ℕ) (ok : Bool) :
    isDecrementEv (SweepEv.cleared u pc ok) = false := rfl

@[simp] theorem isDecrementEv_decremented (pc : ℕ) :
    isDecrementEv (SweepEv.decremented pc) = true := rfl

@[simp] theorem isDecrementEv_queuedNotify (u : ℤ) :
    isDecrementEv (SweepEv.queuedNotify u) = false := rfl

@[simp] theorem isDecrementEv_committed : isDecrementEv SweepEv.committed = false := rfl

@[simp] theorem isDecrementEv_sentNotify (u : ℤ) :
    isDecrementEv (SweepEv.sentNotify u) = false := rfl

/-- Number of decrement events in a trace. -/
def countDecrements (tr : List SweepEv) : ℕ := (tr.filter isDecrementEv).length

/-- Exactness of the sweep loop for an arbitrary candidate list (hence also
for a stale snapshot racing a concurrent consumption): decrements happen one
per row actually removed by the conditional delete, queued notifications
match decrements one-for-one, and the per-user primary key is preserved. -/
theorem sweepLoop_exact (cands : List ActiveDiscountRow) (d : DiscountStore)
    (promos : List PromoCode) (now : ℤ) (hinv : UniqueUserRows d) :
    countDecrements (sweepLoop cands d promos now).2.2.2
        + (sweepLoop cands d promos now).1.length = d.length ∧
      (sweepLoop cands d promos now).2.2.1.length
        = countDecrements (sweepLoop cands d promos now).2.2.2 ∧
      UniqueUserRows (sweepLoop cands d promos now).1 := by
  induction cands generalizing d promos hinv with
  | nil =>
    exact ⟨by simp [sweepLoop, countDecrements], by simp [sweepLoop, countDecrements], hinv⟩
  | cons c rest ih =>
    have hcard := clear_if_matches_card d c.user_id (some c.promo_code_id) (some now) hinv
    cases hok : (clear_active_discount_if_matches d c.user_id (some c.promo_code_id) (some now)).2 with
    | true =>
      have hlen := hcard.2.1 hok
      obtain ⟨ih1, ih2, ih3⟩ :=
        ih (clear_active_discount_if_matches d c.user_id (some c.promo_code_id) (some now)).1
          ((decrement_promo_code_usage promos c.promo_code_id).1) hcard.2.2
      refine ⟨?_, ?_, ?_⟩
      · simp only [sweepLoop, hok, if_true, countDecrements, List.filter_cons,
          isDecrementEv_cleared, isDecrementEv_decremented, isDecrementEv_queuedNotify,
          Bool.false_eq_true, if_false, List.length_cons]
        simp only [countDecrements] at ih1
        omega
      · simp only [sweepLoop, hok, if_true, countDecrements, List.filter_cons,
          isDecrementEv_cleared, isDecrementEv_decremented, isDecrementEv_queuedNotify,
          Bool.false_eq_true, if_false, List.length_cons]
        simp only [countDecrements] at ih2
        omega
      · simp only [sweepLoop, hok, if_true]
        exact ih3
    | false =>
      have heq := hcard.1 hok
      have hL : (clear_active_discount_if_matches d c.user_id
          (some c.promo_code_id) (some now)).1.length = d.length := by rw [heq]
      obtain ⟨ih1, ih2, ih3⟩ :=
        ih (clear_active_discount_if_matches d c.user_id (some c.promo_code_id) (some now)).1
          promos hcard.2.2
      refine ⟨?_, ?_, ?_⟩
      · simp only [sweepLoop, hok, Bool.false_eq_true, if_false, countDecrements,
          List.filter_cons, isDecrementEv_cleared]
        simp only [countDecrements] at ih1
        omega
      · simp only [sweepLoop, hok, Bool.false_eq_true, if_false, countDecrements,
          List.filter_cons, isDecrementEv_cleared]
        simp only [countDecrements] at ih2
        omega
      · simp only [sweepLoop, hok, Bool.false_eq_true, if_false]
        exact ih3

/-- The loop itself never emits a send event. -/
theorem sweepLoop_no_sent (cands : List ActiveDiscountRow) (d : DiscountStore)
    (promos : List PromoCode) (now : ℤ) (u : ℤ) :
    SweepEv.sentNotify u ∉ (sweepLoop cands d promos now).2.2.2 := by
  induction cands generalizing d promos with
  | nil => simp [sweepLoop]
  | cons c rest ih =>
    cases hok : (clear_active_discount_if_matches d c.user_id (some c.promo_code_id) (some now)).2 with
    | true =>
      simp only [sweepLoop, hok, if_true, List.mem_cons]
      push_neg
      exact ⟨by simp, by simp, by simp, ih _ _⟩
    | false =>
      simp only [sweepLoop, hok, Bool.false_eq_true, if_false, List.mem_cons]
      push_neg
      exact ⟨by simp, ih _ _⟩

/-- C7: in one sweeper pass the batch has at most 100 reservations ordered
oldest expiry first, all expired; decrements happen exactly one per row the
conditional deletes removed (and so do queued notifications) — stated both
for the pass itself and for an arbitrary, possibly stale, candidate batch —
and send events occur only after the commit marker, in queue order. -/
theorem claim_C7 (d : DiscountStore) (promos : List PromoCode) (now : ℤ)
    (hinv : UniqueUserRows d) :
    (get_expired_active_discounts d now 100).length ≤ 100 ∧
      (get_expired_active_discounts d now 100).Pairwise
        (fun a b => a.expires_at ≤ b.expires_at) ∧
      (∀ c ∈ get_expired_active_discounts d now 100, c.expires_at ≤ now) ∧
      countDecrements (process_expired_discounts_once d promos now).2.2.2
          + (process_expired_discounts_once d promos now).1.length = d.length ∧
      (process_expired_discounts_once d promos now).2.2.1.length
        = countDecrements (process_expired_discounts_once d promos now).2.2.2 ∧
      (∀ cands (d2 : DiscountStore), UniqueUserRows d2 →
        countDecrements (sweepLoop cands d2 promos now).2.2.2
          + (sweepLoop cands d2 promos now).1.length = d2.length) ∧
      (process_expired_discounts_once d promos now).2.2.2
        = (sweepLoop (get_expired_active_discounts d now 100) d promos now).2.2.2
            ++ [SweepEv.committed]
            ++ (process_expired_discounts_once d promos now).2.2.1.map SweepEv.sentNotify ∧
      (∀ u, SweepEv.sentNotify u
        ∉ (sweepLoop (get_expired_active_discounts d now 100) d promos now).2.2.2) := by
  have hexact := sweepLoop_exact (get_expired_active_discounts d now 100) d promos now hinv
  have htrace : countDecrements (process_expired_discounts_once d promos now).2.2.2
      = countDecrements
          (sweepLoop (get_expired_active_discounts d now 100) d promos now).2.2.2 := by
    simp only [process_expired_discounts_once, countDecrements, List.filter_append,
      List.length_append]
    have h1 : List.filter isDecrementEv [SweepEv.committed] = [] := rfl
    have h2 : ∀ us : List ℤ, List.filter isDecrementEv (us.map SweepEv.sentNotify) = [] := by
      intro us
      induction us with
      | nil => rfl
      | cons u rest ih => simp [List.filter_cons, ih]
    rw [h1, h2]
    simp
  refine ⟨?_, ?_, ?_, ?_, ?_, ?_, ?_, ?_⟩
  · simp [get_expired_active_discounts]
  · exact (pairwise_sortByExpiry _).sublist (List.take_sublist _ _)
  · intro c hc
    have h1 : c ∈ sortByExpiry (d.filter (fun r => decide (r.expires_at ≤ now))) :=
      List.mem_of_mem_take hc
    have h2 : c ∈ d.filter (fun r => decide (r.expires_at ≤ now)) :=
      mem_sortByExpiry.mp h1
    have := (List.mem_filter.mp h2).2
    simpa using this
  · rw [htrace]
    exact hexact.1
  · rw [htrace]
    exact hexact.2.1
  · intro cands d2 hinv2
    exact (sweepLoop_exact cands d2 promos now hinv2).1
  · rfl
  · intro u
    exact sweepLoop_no_sent _ _ _ _ u

/-- Witness store for C7: one reservation of user 7 that expired at 10. -/
def c7Store : DiscountStore := [⟨7, 1, 10, 0, 10⟩]

/-- Witness promo table for C7: the reserved promo holds one counted
activation. -/
def c7Promos : List PromoCode := [⟨1, "C7CODE", PromoKind.discount, 10, 5, 1, true, none⟩]

/-- Witness for C7 (the spec's scenario): sweeping at time 11 removes the
reservation that expired at 10, decrements its promo's counter from 1 to 0,
and queues exactly one notification for user 7. -/
theorem claim_C7_witness :
    UniqueUserRows c7Store ∧
      countDecrements (process_expired_discounts_once c7Store c7Promos 11).2.2.2
          + (process_expired_discounts_once c7Store c7Promos 11).1.length
        = c7Store.length ∧
      (process_expired_discounts_once c7Store c7Promos 11).2.2.1.length
        = countDecrements (process_expired_discounts_once c7Store c7Promos 11).2.2.2 ∧
      (process_expired_discounts_once c7Store c7Promos 11).1 = [] ∧
      (process_expired_discounts_once c7Store c7Promos 11).2.1
        = [⟨1, "C7CODE", PromoKind.discount, 10, 5, 0, true, none⟩] ∧
      (process_expired_discounts_once c7Store c7Promos 11).2.2.1 = [7] := by
  have h := claim_C7 c7Store c7Promos 11 (by decide)
  exact ⟨by decide, h.2.2.2.1, h.2.2.2.2.1, by decide, by decide, by decide⟩

/-- Modelled from the spec: `payment_dal.update_payment_status_by_db_id`
(module outside the verified tree) — plain status update of one row,
recording the provider payment id when given. -/
def updateStatusRow (pid : ℕ) (new_status : String)
    (yk_payment_id : Option String) (p : Payment) : Payment :=
  if p.payment_id == pid then
    { p with
      status := new_status,
      provider_payment_id :=
        match yk_payment_id with
        | some yk => some yk
        | none => p.provider_payment_id }
  else p

def update_payment_status_by_db_id (payments : List Payment) (pid : ℕ)
    (new_status : String) (yk_payment_id : Option String) :
    List Payment × Bool :=
  (payments.map (updateStatusRow pid new_status yk_payment_id),
    payments.any (fun p => p.payment_id == pid))

/-- Modelled from the spec: `payment_dal.mark_provider_payment_processing_once`
— "an atomic conditional transition that succeeds only if the row's current
status still has the `pending_*` prefix; it sets status to `processing` and
records the provider payment id" (spec 4.2); a single conditional UPDATE
whose affected-row-count is the success signal. -/
def markProcessingRow (pid : ℕ) (provider_payment_id : String)
    (expected_stem : String) (p : Payment) : Payment :=
  if p.payment_id == pid && pyStartsWith p.status expected_stem then
    { p with
      status := processingStatus,
      provider_payment_id := some provider_payment_id }
  else p

def mark_provider_payment_processing_once (payments : List Payment) (pid : ℕ)
    (provider_payment_id : String) (expected_stem : String) :
    List Payment × Bool :=
  (payments.map (markProcessingRow pid provider_payment_id expected_stem),
    payments.any (fun p => p.payment_id == pid && pyStartsWith p.status expected_stem))

/-- Modelled from the spec: `payment_dal.rollback_provider_payment_processing`
— "the rollback is itself an atomic conditional update guarded on the row
still being `processing`" (spec 4.2). -/
def rollbackRow (pid : ℕ) (rollback_status : String)
    (provider_payment_id : String) (p : Payment) : Payment :=
  if p.payment_id == pid && p.status == processingStatus then
    { p with
      status := rollback_status,
      provider_payment_id := some provider_payment_id }
  else p

def rollback_provider_payment_processing (payments : List Payment) (pid : ℕ)
    (rollback_status : String) (provider_payment_id : String) :
    List Payment × Bool :=
  (payments.map (rollbackRow pid rollback_status provider_payment_id),
    payments.any (fun p => p.payment_id == pid && p.status == processingStatus))

/-- Modelled from the spec: `payment_dal.mark_provider_payment_succeeded_once`
— atomic conditional transition to `succeeded` recording the final provider
payment id.  Spec 4.2 words it "from `processing` to `succeeded`", but the
Stars flow (stars_service.py line 165) invokes the same operation directly
from `pending_stars` and proceeds on success, so the modelled guard is the
"once" part: the row is not already `succeeded`. -/
def markSucceededRow (pid : ℕ) (provider_payment_id : String)
    (p : Payment) : Payment :=
  if p.payment_id == pid && !(p.status == succeededStatus) then
    { p with
      status := succeededStatus,
      provider_payment_id := some provider_payment_id }
  else p

def mark_provider_payment_succeeded_once (payments : List Payment) (pid : ℕ)
    (provider_payment_id : String) : List Payment × Bool :=
  (payments.map (markSucceededRow pid provider_payment_id),
    payments.any (fun p => p.payment_id == pid && !(p.status == succeededStatus)))

/-- The empty string (named so string literals never directly follow a
name). -/
def emptyString : String := ""

/-- Metadata dictionary of a YooKassa payment (`metadata.get(...)` returns
`None` for an absent key, modelled as `none`). -/
structure WebhookMeta where
  user_id : Option String
  subscription_months : Option String
  traffic_gb : Option String
  sale_mode : Option String
  promo_code_id : Option String
  payment_db_id : Option String
  auto_renew_for_subscription_id : Option String
deriving DecidableEq, Repr

/-- The payment dictionary handed to `process_successful_payment` by the
webhook route (the fields that function reads). -/
structure WebhookPayload where
  id : Option String
  status : String
  paid : Bool
  amount_value : ℚ
  metadata : WebhookMeta
deriving DecidableEq, Repr

/-- Provider-side payment info returned by
`yookassa_service.get_payment_info` — the fields the verification gate in
payment.py lines 100-173 compares. -/
structure ProviderPaymentInfo where
  status : String
  paid : Bool
  meta_user_id : Option String
  meta_payment_db_id : Option String
  amount_value : ℚ
  amount_currency : String
deriving DecidableEq, Repr

/-- Result payload of `subscription_service.activate_subscription` as the
finalizer reads it. -/
structure ActivationDetails where
  end_date : Option ℤ
deriving DecidableEq, Repr

/-- The external activation call can raise, or return an optional result
whose `end_date` may be missing. -/
inductive ActivationOutcome
  | raises
  | returns (details : Option ActivationDetails)
deriving DecidableEq, Repr

/-- External collaborators and configuration of one webhook processing run
(oracles: they do not depend on the ledger state). -/
structure FinalizerEnv where
  yookassa_configured : Bool
  provider_info : Option ProviderPaymentInfo
  activation : ActivationOutcome
  traffic_sale_mode : Bool
deriving DecidableEq, Repr

/-- Observable events of one finalizer run against the payments table and
the activation collaborator. -/
inductive PayEv
  | statusUpdate (pid : ℕ) (st : String)
  | claim (pid : ℕ) (ok : Bool)
  | activate
  | activateDone
  | markSucceeded (pid : ℕ) (ok : Bool)
  | rollback (pid : ℕ) (toStatus : String)
  | txnRollback
  | commitTxn
  | notify
deriving DecidableEq, Repr

/-- Result of one `process_successful_payment` run: the Python return value
(`none` models an exception propagating out of the function), the session's
payments table, and the event trace. -/
structure ProcOutcome where
  retval : Option Bool
  payments : List Payment
  trace : List PayEv
deriving DecidableEq, Repr

/-- Transcribed from the provider verification gate of
`process_successful_payment` (payment.py lines 100-173): status/paid check,
metadata user id and payment db id agreement, amount agreement at 2-decimal
precision against both the webhook body and the ledger row, and currency
agreement when the provider reports one. -/
def verificationGatePasses (pi : ProviderPaymentInfo) (uid : ℤ) (pdb : ℕ)
    (payment_value : ℚ) (record : Payment) : Bool :=
  (pi.status == succeededStatus) && pi.paid
    && ((truthyStr pi.meta_user_id).getD emptyString == toString uid)
    && ((pyStrip ((truthyStr pi.meta_payment_db_id).getD emptyString)) == toString pdb)
    && decide (round2 pi.amount_value = round2 payment_value)
    && decide (round2 record.amount = round2 pi.amount_value)
    && ((pyUpper pi.amount_currency).isEmpty
        || (pyUpper record.currency == pyUpper pi.amount_currency))

/-- The verification step as invoked (payment.py line 100): it runs only when
the webhook carries a provider payment id and the verification service is
configured, and it fails hard when the provider API returns nothing. -/
def providerVerificationOk (w : WebhookPayload) (env : FinalizerEnv) (uid : ℤ)
    (pdb : ℕ) (record : Payment) : Bool :=
  if (truthyStr w.id).isSome && env.yookassa_configured then
    match env.provider_info with
    | none => false
    | some pi => verificationGatePasses pi uid pdb w.amount_value record
  else true

/-- The claim/activate/mark tail of `process_successful_payment`
(payment.py lines 230-370, after the pre-claim re-read): claim the row out of
its `pending_*` status, invoke activation, compensate by rolling back to the
pre-claim status on a raise or an incomplete result, else atomically mark
succeeded.  The payment-method capture (lines 271-318) touches only the
user-billing tables and is wrapped in try/except; the post-success referral
bonus, user messages and operator notification (lines 372-527) never write
the payments table and their failures are caught — both are modelled as the
final `notify` event. -/
def finalizeClaim (payments : List Payment) (env : FinalizerEnv) (pdb : ℕ)
    (pbu : Option Payment) (provider_payment_id : String) : ProcOutcome :=
  let cl := mark_provider_payment_processing_once payments pdb provider_payment_id pendingStem
  if !cl.2 then
    match get_payment_by_db_id cl.1 pdb with
    | some after =>
      if after.status == succeededStatus then
        ⟨some true, cl.1, [PayEv.claim pdb false]⟩
      else
        ⟨some false, cl.1, [PayEv.claim pdb false]⟩
    | none => ⟨some false, cl.1, [PayEv.claim pdb false]⟩
  else
    match env.activation with
    | ActivationOutcome.raises =>
      let previous_status := (pbu.map (fun p => p.status)).getD pendingYookassa
      let rb := rollback_provider_payment_processing cl.1 pdb previous_status provider_payment_id
      ⟨some false, rb.1,
        [PayEv.claim pdb true, PayEv.activate, PayEv.rollback pdb previous_status]⟩
    | ActivationOutcome.returns details =>
      match (match details with
             | some dt => dt.end_date
             | none => none) with
      | none =>
        let previous_status := (pbu.map (fun p => p.status)).getD pendingYookassa
        let rb := rollback_provider_payment_processing cl.1 pdb previous_status provider_payment_id
        ⟨some false, rb.1,
          [PayEv.claim pdb true, PayEv.activate, PayEv.rollback pdb previous_status]⟩
      | some _ =>
        let mk := mark_provider_payment_succeeded_once cl.1 pdb provider_payment_id
        if !mk.2 then
          ⟨some false, mk.1,
            [PayEv.claim pdb true, PayEv.activate, PayEv.activateDone,
              PayEv.markSucceeded pdb false]⟩
        else
          ⟨some true, mk.1,
            [PayEv.claim pdb true, PayEv.activate, PayEv.activateDone,
              PayEv.markSucceeded pdb true, PayEv.notify]⟩

/-- Lines 209-228 of `process_successful_payment`: an empty provider payment
id raises (the exception is re-raised by the outer handler, line 534); the
row is re-read before the claim and an already-succeeded row short-circuits
to success. -/
def finalizePayment (w : WebhookPayload) (payments : List Payment)
    (env : FinalizerEnv) (pdb : ℕ) : ProcOutcome :=
  let provider_payment_id := pyStrip ((truthyStr w.id).getD emptyString)
  if provider_payment_id.isEmpty then ⟨none, payments, []⟩
  else
    match get_payment_by_db_id payments pdb with
    | some pbu =>
      if pbu.status == succeededStatus then ⟨some true, payments, []⟩
      else finalizeClaim payments env pdb (some pbu) provider_payment_id
    | none => finalizeClaim payments env pdb none provider_payment_id

/-- Lines 84-191 of `process_successful_payment`: record lookup, ownership
check, provider verification, duplicate suppression and the user-existence
check, before handing over to the finalization tail. -/
def processWithRecord (w : WebhookPayload) (payments : List Payment)
    (users : List ℤ) (env : FinalizerEnv) (uid : ℤ) (pdb : ℕ) : ProcOutcome :=
  match get_payment_by_db_id payments pdb with
  | none => ⟨some false, payments, []⟩
  | some record =>
    if !(record.user_id == uid) then ⟨some false, payments, []⟩
    else if !(providerVerificationOk w env uid pdb record) then
      ⟨some false, payments, []⟩
    else if record.status == succeededStatus then ⟨some true, payments, []⟩
    else if !(users.contains uid) then
      let upd := update_payment_status_by_db_id payments pdb failedUserNotFound w.id
      ⟨some false, upd.1, [PayEv.statusUpdate pdb failedUserNotFound]⟩
    else finalizePayment w payments env pdb

/-- `float(subscription_months_str or 0)` (payment.py line 65). -/
def monthsParse (md : WebhookMeta) : Option ℚ :=
  match truthyStr md.subscription_months with
  | some s => pyFloat? s
  | none => some 0

/-- `float(traffic_gb_str) if traffic_gb_str else subscription_months`
(payment.py line 66). -/
def trafficParse (md : WebhookMeta) (months : ℚ) : Option ℚ :=
  match truthyStr md.traffic_gb with
  | some s => pyFloat? s
  | none => some months

/-- The numeric conversions of payment.py lines 64-66; `none` models a raised
`ValueError`. -/
def parseIds (md : WebhookMeta) (user_id_str : String) : Option (ℤ × ℚ × ℚ) :=
  match pyInt? user_id_str with
  | none => none
  | some uid =>
    match monthsParse md with
    | none => none
    | some months =>
      match trafficParse md months with
      | none => none
      | some traffic => some (uid, months, traffic)

/-- Transcribed from `process_successful_payment` (payment.py lines 33-534):
metadata guard, numeric conversions with the `failed_metadata_error` path on
a `ValueError`, the non-numeric `payment_db_id` rejection, then the record
phase.  Amount strings are idealized as rationals. -/
def process_successful_payment (w : WebhookPayload) (payments : List Payment)
    (users : List ℤ) (env : FinalizerEnv) : ProcOutcome :=
  match truthyStr w.metadata.user_id, truthyStr w.metadata.payment_db_id with
  | some user_id_str, some payment_db_id_str =>
    if (truthyStr w.metadata.subscription_months).isNone
        && (truthyStr w.metadata.traffic_gb).isNone then
      ⟨some false, payments, []⟩
    else
      match parseIds w.metadata user_id_str with
      | none =>
        if pyIsDigit payment_db_id_str then
          let k := (pyToNat? payment_db_id_str).getD 0
          let upd := update_payment_status_by_db_id payments k failedMetadataError w.id
          ⟨some false, upd.1, [PayEv.statusUpdate k failedMetadataError]⟩
        else ⟨some false, payments, []⟩
      | some (uid, _months, _traffic) =>
        if !(pyIsDigit payment_db_id_str) then ⟨some false, payments, []⟩
        else processWithRecord w payments users env uid ((pyToNat? payment_db_id_str).getD 0)
  | _, _ => ⟨some false, payments, []⟩

/-- A row-wise update that never changes the primary key commutes with the
primary-key lookup. -/
theorem get_payment_by_db_id_map (payments : List Payment) (pdb : ℕ)
    (f : Payment → Payment) (hf : ∀ p, (f p).payment_id = p.payment_id) :
    get_payment_by_db_id (payments.map f) pdb
      = (get_payment_by_db_id payments pdb).map f := by
  unfold get_payment_by_db_id
  have hp : ((fun p : Payment => p.payment_id == pdb) ∘ f)
      = (fun p : Payment => p.payment_id == pdb) := by
    funext p
    simp [Function.comp, hf]
  rw [List.find?_map, hp]

/-- Classifier of the activation outcomes the compensation path handles:
a raise, a missing result, or a result with no `end_date`. -/
def activationFails : ActivationOutcome → Bool
  | ActivationOutcome.raises => true
  | ActivationOutcome.returns none => true
  | ActivationOutcome.returns (some dt) => dt.end_date.isNone

/-- C1: a redelivered webhook for an already-succeeded payment — one whose
metadata parses, whose record is owned by the metadata's user and whose
provider verification passes — makes `process_successful_payment` return
True while writing nothing to the ledger and never invoking activation. -/
theorem claim_C1 (w : WebhookPayload) (payments : List Payment)
    (users : List ℤ) (env : FinalizerEnv) (us ps : String) (uid : ℤ)
    (months traffic : ℚ) (pdb : ℕ) (record : Payment)
    (hus : truthyStr w.metadata.user_id = some us)
    (hps : truthyStr w.metadata.payment_db_id = some ps)
    (hguard : ((truthyStr w.metadata.subscription_months).isNone
        && (truthyStr w.metadata.traffic_gb).isNone) = false)
    (hparse : parseIds w.metadata us = some (uid, months, traffic))
    (hdigit : pyIsDigit ps = true)
    (hk : pyToNat? ps = some pdb)
    (hrec : get_payment_by_db_id payments pdb = some record)
    (hown : record.user_id = uid)
    (hver : providerVerificationOk w env uid pdb record = true)
    (hsucc : record.status = succeededStatus) :
    process_successful_payment w payments users env = ⟨some true, payments, []⟩ ∧
      PayEv.activate ∉ (process_successful_payment w payments users env).trace := by
  have hmain : process_successful_payment w payments users env
      = ⟨some true, payments, []⟩ := by
    simp only [process_successful_payment, hus, hps, hguard, hparse, hdigit, hk,
      Bool.false_eq_true, if_false, Bool.not_true, Option.getD_some]
    simp only [processWithRecord, hrec, hown, hver, hsucc, beq_self_eq_true,
      Bool.not_true, Bool.false_eq_true, if_false, if_true]
  refine ⟨hmain, ?_⟩
  rw [hmain]
  simp

/-- Witness metadata strings. -/
def str7 : String := "7"

/-- Witness metadata string for db id 1. -/
def str1 : String := "1"

/-- Witness provider payment id. -/
def pay123 : String := "pay_123"

/-- Witness currency. -/
def rubCur : String := "RUB"

/-- Witness webhook metadata: user 7, one month, payment db id 1. -/
def c1Meta : WebhookMeta := ⟨some str7, some str1, none, none, none, some str1, none⟩

/-- Witness webhook payload: a paid, succeeded notification for pay_123. -/
def c1Payload : WebhookPayload := ⟨some pay123, succeededStatus, true, 100, c1Meta⟩

/-- Witness ledger row: payment 1 already succeeded. -/
def c1Record : Payment := ⟨1, 7, succeededStatus, some pay123, 100, rubCur, none, none, none⟩

/-- Witness environment: verification service not configured, so the gate is
skipped (payment.py line 100 guards on `yookassa_service.configured`). -/
def c1Env : FinalizerEnv := ⟨false, none, ActivationOutcome.raises, false⟩

/-- Witness for C1: the duplicate delivery for the already-succeeded payment
1 returns True with no ledger write and no activation. -/
theorem claim_C1_witness :
    truthyStr c1Payload.metadata.user_id = some str7 ∧
      truthyStr c1Payload.metadata.payment_db_id = some str1 ∧
      ((truthyStr c1Payload.metadata.subscription_months).isNone
        && (truthyStr c1Payload.metadata.traffic_gb).isNone) = false ∧
      parseIds c1Payload.metadata str7 = some (7, 1, 1) ∧
      pyIsDigit str1 = true ∧
      pyToNat? str1 = some 1 ∧
      get_payment_by_db_id [c1Record] 1 = some c1Record ∧
      c1Record.user_id = 7 ∧
      providerVerificationOk c1Payload c1Env 7 1 c1Record = true ∧
      c1Record.status = succeededStatus ∧
      process_successful_payment c1Payload [c1Record] [7] c1Env
        = ⟨some true, [c1Record], []⟩ := by
  refine ⟨by decide, by decide, by decide, by decide, by decide, by decide, by decide,
    by decide, by decide, by decide, ?_⟩
  exact (claim_C1 c1Payload [c1Record] [7] c1Env str7 str1 7 1 1 1 c1Record
    (by decide) (by decide) (by decide) (by decide) (by decide) (by decide)
    (by decide) (by decide) (by decide) (by decide)).1

theorem markProcessingRow_id (pid : ℕ) (ppid stem : String) (p : Payment) :
    (markProcessingRow pid ppid stem p).payment_id = p.payment_id := by
  unfold markProcessingRow
  split <;> rfl

theorem rollbackRow_id (pid : ℕ) (st ppid : String) (p : Payment) :
    (rollbackRow pid st ppid p).payment_id = p.payment_id := by
  unfold rollbackRow
  split <;> rfl

theorem markSucceededRow_id (pid : ℕ) (ppid : String) (p : Payment) :
    (markSucceededRow pid ppid p).payment_id = p.payment_id := by
  unfold markSucceededRow
  split <;> rfl

theorem updateStatusRow_id (pid : ℕ) (st : String) (yk : Option String) (p : Payment) :
    (updateStatusRow pid st yk p).payment_id = p.payment_id := by
  unfold updateStatusRow
  split <;> rfl

/-- C2: when the claim succeeds (the row was still `pending_*`) and the
activation call raises or returns a result without an end date, the payment
row is rolled back to the status captured before the claim and the function
returns the retryable failure False; in particular the row's status after the
attempt equals its status before the attempt. -/
theorem claim_C2 (w : WebhookPayload) (payments : List Payment)
    (users : List ℤ) (env : FinalizerEnv) (us ps : String) (uid : ℤ)
    (months traffic : ℚ) (pdb : ℕ) (record : Payment)
    (hus : truthyStr w.metadata.user_id = some us)
    (hps : truthyStr w.metadata.payment_db_id = some ps)
    (hguard : ((truthyStr w.metadata.subscription_months).isNone
        && (truthyStr w.metadata.traffic_gb).isNone) = false)
    (hparse : parseIds w.metadata us = some (uid, months, traffic))
    (hdigit : pyIsDigit ps = true)
    (hk : pyToNat? ps = some pdb)
    (hrec : get_payment_by_db_id payments pdb = some record)
    (hown : record.user_id = uid)
    (hver : providerVerificationOk w env uid pdb record = true)
    (hpend : pyStartsWith record.status pendingStem = true)
    (huser : users.contains uid = true)
    (hppid : (pyStrip ((truthyStr w.id).getD emptyString)).isEmpty = false)
    (hfail : activationFails env.activation = true) :
    (process_successful_payment w payments users env).retval = some false ∧
      Option.map (fun p => p.status)
        (get_payment_by_db_id
          (process_successful_payment w payments users env).payments pdb)
        = some record.status := by
  have hneq : (record.status == succeededStatus) = false := by
    cases h : record.status == succeededStatus with
    | false => rfl
    | true =>
      have heq := (beq_iff_eq (a := record.status) (b := succeededStatus)).mp h
      rw [heq] at hpend
      exact absurd hpend (by decide)
  have hid0 := List.find?_some
    (show payments.find? (fun p => p.payment_id == pdb) = some record from hrec)
  have hid : (record.payment_id == pdb) = true := hid0
  have hmem : record ∈ payments :=
    List.mem_of_find?_eq_some
      (show payments.find? (fun p => p.payment_id == pdb) = some record from hrec)
  set ppidval := pyStrip ((truthyStr w.id).getD emptyString) with hppdef
  have hcl2 : (mark_provider_payment_processing_once payments pdb ppidval pendingStem).2
      = true := by
    apply List.any_eq_true.mpr
    exact ⟨record, hmem, by simp [hid, hpend]⟩
  have hget1 : get_payment_by_db_id
      (mark_provider_payment_processing_once payments pdb ppidval pendingStem).1 pdb
      = some (markProcessingRow pdb ppidval pendingStem record) := by
    have hm := get_payment_by_db_id_map payments pdb
      (markProcessingRow pdb ppidval pendingStem) (markProcessingRow_id pdb ppidval pendingStem)
    rw [show (mark_provider_payment_processing_once payments pdb ppidval pendingStem).1
        = payments.map (markProcessingRow pdb ppidval pendingStem) from rfl, hm, hrec]
    rfl
  have hrow1 : markProcessingRow pdb ppidval pendingStem record
      = { record with
          status := processingStatus,
          provider_payment_id := some ppidval } := by
    unfold markProcessingRow
    rw [if_pos (by simp [hid, hpend])]
  have hget2 : get_payment_by_db_id
      (rollback_provider_payment_processing
        (mark_provider_payment_processing_once payments pdb ppidval pendingStem).1
        pdb record.status ppidval).1 pdb
      = some (rollbackRow pdb record.status ppidval
          (markProcessingRow pdb ppidval pendingStem record)) := by
    have hm := get_payment_by_db_id_map
      (mark_provider_payment_processing_once payments pdb ppidval pendingStem).1 pdb
      (rollbackRow pdb record.status ppidval) (rollbackRow_id pdb record.status ppidval)
    rw [show (rollback_provider_payment_processing
        (mark_provider_payment_processing_once payments pdb ppidval pendingStem).1
        pdb record.status ppidval).1
        = (mark_provider_payment_processing_once payments pdb ppidval pendingStem).1.map
            (rollbackRow pdb record.status ppidval) from rfl, hm, hget1]
    rfl
  have hstat : Option.map (fun p => p.status)
      (get_payment_by_db_id
        (rollback_provider_payment_processing
          (mark_provider_payment_processing_once payments pdb ppidval pendingStem).1
          pdb record.status ppidval).1 pdb)
      = some record.status := by
    rw [hget2]
    have : (rollbackRow pdb record.status ppidval
        (markProcessingRow pdb ppidval pendingStem record)).status = record.status := by
      rw [hrow1]
      unfold rollbackRow
      rw [if_pos (by simp [hid])]
    simp [this]
  have hredmain : process_successful_payment w payments users env
      = finalizeClaim payments env pdb (some record) ppidval := by
    simp only [process_successful_payment, hus, hps, hguard, hparse, hdigit, hk,
      Option.getD_some, Bool.false_eq_true, if_false, Bool.not_true, Bool.not_false, if_true]
    simp only [processWithRecord, hrec, hown, hver, hneq, beq_self_eq_true, Bool.not_true,
      Bool.false_eq_true, if_false, Bool.not_false, if_true, huser]
    simp only [finalizePayment, hrec, hneq, Bool.false_eq_true, if_false, ← hppdef, hppid]
  cases hact : env.activation with
  | raises =>
    have hfin : finalizeClaim payments env pdb (some record) ppidval
        = ⟨some false,
            (rollback_provider_payment_processing
              (mark_provider_payment_processing_once payments pdb ppidval pendingStem).1
              pdb record.status ppidval).1,
            [PayEv.claim pdb true, PayEv.activate, PayEv.rollback pdb record.status]⟩ := by
      simp only [finalizeClaim, hcl2, Bool.not_true, Bool.false_eq_true, if_false, hact,
        Option.map_some', Option.getD_some]
    rw [hredmain, hfin]
    exact ⟨rfl, hstat⟩
  | returns details =>
    cases details with
    | none =>
      have hfin : finalizeClaim payments env pdb (some record) ppidval
          = ⟨some false,
              (rollback_provider_payment_processing
                (mark_provider_payment_processing_once payments pdb ppidval pendingStem).1
                pdb record.status ppidval).1,
              [PayEv.claim pdb true, PayEv.activate, PayEv.rollback pdb record.status]⟩ := by
        simp only [finalizeClaim, hcl2, Bool.not_true, Bool.false_eq_true, if_false, hact,
          Option.map_some', Option.getD_some]
      rw [hredmain, hfin]
      exact ⟨rfl, hstat⟩
    | some dt =>
      cases hend : dt.end_date with
      | some d =>
        rw [hact] at hfail
        simp [activationFails, hend] at hfail
      | none =>
        have hfin : finalizeClaim payments env pdb (some record) ppidval
            = ⟨some false,
                (rollback_provider_payment_processing
                  (mark_provider_payment_processing_once payments pdb ppidval pendingStem).1
                  pdb record.status ppidval).1,
                [PayEv.claim pdb true, PayEv.activate, PayEv.rollback pdb record.status]⟩ := by
          simp only [finalizeClaim, hcl2, Bool.not_true, Bool.false_eq_true, if_false, hact,
            hend, Option.map_some', Option.getD_some]
        rw [hredmain, hfin]
        exact ⟨rfl, hstat⟩

/-- Witness webhook metadata for C2 (same shape as C1's). -/
def c2Meta : WebhookMeta := ⟨some str7, some str1, none, none, none, some str1, none⟩

/-- Witness webhook payload for C2. -/
def c2Payload : WebhookPayload := ⟨some pay123, succeededStatus, true, 100, c2Meta⟩

/-- Witness ledger row for C2: payment 1 still pending. -/
def c2Record : Payment := ⟨1, 7, pendingYookassa, none, 100, rubCur, none, none, none⟩

/-- Witness environment for C2: verification skipped, activation raises. -/
def c2Env : FinalizerEnv := ⟨false, none, ActivationOutcome.raises, false⟩

/-- Witness for C2: with activation raising, payment 1 is claimed and then
rolled back to `pending_yookassa`, and the function returns False. -/
theorem claim_C2_witness :
    truthyStr c2Payload.metadata.user_id = some str7 ∧
      pyIsDigit str1 = true ∧
      get_payment_by_db_id [c2Record] 1 = some c2Record ∧
      pyStartsWith c2Record.status pendingStem = true ∧
      ([(7 : ℤ)].contains 7) = true ∧
      (pyStrip ((truthyStr c2Payload.id).getD emptyString)).isEmpty = false ∧
      activationFails c2Env.activation = true ∧
      (process_successful_payment c2Payload [c2Record] [7] c2Env).retval = some false ∧
      Option.map (fun p => p.status)
        (get_payment_by_db_id
          (process_successful_payment c2Payload [c2Record] [7] c2Env).payments 1)
        = some c2Record.status := by
  have h := claim_C2 c2Payload [c2Record] [7] c2Env str7 str1 7 1 1 1 c2Record
    (by decide) (by decide) (by decide) (by decide) (by decide) (by decide)
    (by decide) (by decide) (by decide) (by decide) (by decide) (by decide) (by decide)
  exact ⟨by decide, by decide, by decide, by decide, by decide, by decide, by decide,
    h.1, h.2⟩

/-- The ordering discipline claim C3 asserts, as a scanner over the event
trace: an activation may be invoked only after a successful claim, and a
successful mark-succeeded may happen only after an activation completed. -/
def goodOrder (claimed activated : Bool) : List PayEv → Bool
  | [] => true
  | PayEv.claim _ true :: rest => goodOrder true activated rest
  | PayEv.activate :: rest => claimed && goodOrder claimed activated rest
  | PayEv.activateDone :: rest => goodOrder claimed true rest
  | PayEv.markSucceeded _ true :: rest => activated && goodOrder claimed activated rest
  | _ :: rest => goodOrder claimed activated rest

theorem goodOrder_finalizeClaim (payments : List Payment) (env : FinalizerEnv)
    (pdb : ℕ) (pbu : Option Payment) (ppid : String) :
    goodOrder false false (finalizeClaim payments env pdb pbu ppid).trace = true := by
  unfold finalizeClaim
  cases hcl : (mark_provider_payment_processing_once payments pdb ppid pendingStem).2 with
  | false =>
    simp only [hcl, Bool.not_false, if_true]
    cases hget : get_payment_by_db_id
        (mark_provider_payment_processing_once payments pdb ppid pendingStem).1 pdb with
    | some after =>
      cases hs : after.status == succeededStatus with
      | true => simp only [hs, if_true]; rfl
      | false => simp only [hs, Bool.false_eq_true, if_false]; rfl
    | none => rfl
  | true =>
    simp only [hcl, Bool.not_true, Bool.false_eq_true, if_false]
    cases hact : env.activation with
    | raises => rfl
    | returns details =>
      cases details with
      | none => rfl
      | some dt =>
        cases hend : dt.end_date with
        | none => simp only [hend]; rfl
        | some d =>
          simp only [hend]
          cases hmk : (mark_provider_payment_succeeded_once
              (mark_provider_payment_processing_once payments pdb ppid pendingStem).1
              pdb ppid).2 with
          | false => simp only [hmk, Bool.not_false, if_true]; rfl
          | true => simp only [hmk, Bool.not_true, Bool.false_eq_true, if_false]; rfl

theorem goodOrder_finalizePayment (w : WebhookPayload) (payments : List Payment)
    (env : FinalizerEnv) (pdb : ℕ) :
    goodOrder false false (finalizePayment w payments env pdb).trace = true := by
  unfold finalizePayment
  cases he : (pyStrip ((truthyStr w.id).getD emptyString)).isEmpty with
  | true => simp only [he, if_true]; rfl
  | false =>
    simp only [he, Bool.false_eq_true, if_false]
    cases hget : get_payment_by_db_id payments pdb with
    | some pbu =>
      cases hs : pbu.status == succeededStatus with
      | true => simp only [hs, if_true]; rfl
      | false =>
        simp only [hs, Bool.false_eq_true, if_false]
        exact goodOrder_finalizeClaim _ _ _ _ _
    | none => exact goodOrder_finalizeClaim _ _ _ _ _

theorem goodOrder_processWithRecord (w : WebhookPayload) (payments : List Payment)
    (users : List ℤ) (env : FinalizerEnv) (uid : ℤ) (pdb : ℕ) :
    goodOrder false false (processWithRecord w payments users env uid pdb).trace = true := by
  unfold processWithRecord
  cases hget : get_payment_by_db_id payments pdb with
  | none => rfl
  | some record =>
    cases h1 : record.user_id == uid with
    | false => simp only [h1, Bool.not_false, if_true]; rfl
    | true =>
      simp only [h1, Bool.not_true, Bool.false_eq_true, if_false]
      cases h2 : providerVerificationOk w env uid pdb record with
      | false => simp only [h2, Bool.not_false, if_true]; rfl
      | true =>
        simp only [h2, Bool.not_true, Bool.false_eq_true, if_false]
        cases h3 : record.status == succeededStatus with
        | true => simp only [h3, if_true]; rfl
        | false =>
          simp only [h3, Bool.false_eq_true, if_false]
          cases h4 : users.contains uid with
          | false => simp only [h4, Bool.not_false, if_true]; rfl
          | true =>
            simp only [h4, Bool.not_true, Bool.false_eq_true, if_false]
            exact goodOrder_finalizePayment _ _ _ _

/-- C3 (amended): within the YooKassa webhook finalizer
`process_successful_payment` the steps are strictly ordered — no run invokes
activation without a successful claim first, and no run marks a payment
succeeded before activation has completed. -/
theorem claim_C3_amended (w : WebhookPayload) (payments : List Payment)
    (users : List ℤ) (env : FinalizerEnv) :
    goodOrder false false (process_successful_payment w payments users env).trace
      = true := by
  unfold process_successful_payment
  cases h1 : truthyStr w.metadata.user_id with
  | none => rfl
  | some us =>
    cases h2 : truthyStr w.metadata.payment_db_id with
    | none => rfl
    | some ps =>
      dsimp only
      cases h3 : (truthyStr w.metadata.subscription_months).isNone
          && (truthyStr w.metadata.traffic_gb).isNone with
      | true => simp only [h3, if_true]; rfl
      | false =>
        simp only [h3, Bool.false_eq_true, if_false]
        cases h4 : parseIds w.metadata us with
        | none =>
          cases h5 : pyIsDigit ps with
          | true => simp only [h5, if_true]; rfl
          | false => simp only [h5, Bool.false_eq_true, if_false]; rfl
        | some t =>
          obtain ⟨uid, months, traffic⟩ := t
          cases h5 : pyIsDigit ps with
          | false => simp only [h5, Bool.not_false, if_true]; rfl
          | true =>
            simp only [h5, Bool.not_true, Bool.false_eq_true, if_false]
            exact goodOrder_processWithRecord _ _ _ _ _ _

/-- Prefix of the synthetic stars provider payment id. -/
def starsStem : String := "stars:"

/-- Transcribed from `StarsService.process_successful_payment`
(stars_service.py lines 147-207): the payment is atomically marked succeeded
FIRST (line 165), then activation is invoked (line 177); on a raise or an
incomplete activation result the whole transaction is rolled back (line 203),
otherwise referral bonuses run and the transaction commits (line 201). -/
def stars_process_successful_payment (payments : List Payment) (pdb : ℕ)
    (charge_id : Option String) (activation : ActivationOutcome) :
    List Payment × List PayEv :=
  let provider_payment_id :=
    (truthyStr charge_id).getD (String.append starsStem (toString pdb))
  let mk := mark_provider_payment_succeeded_once payments pdb provider_payment_id
  if !mk.2 then (mk.1, [PayEv.markSucceeded pdb false])
  else
    match activation with
    | ActivationOutcome.raises =>
      (payments, [PayEv.markSucceeded pdb true, PayEv.activate, PayEv.txnRollback])
    | ActivationOutcome.returns details =>
      match (match details with
             | some dt => dt.end_date
             | none => none) with
      | none =>
        (payments, [PayEv.markSucceeded pdb true, PayEv.activate, PayEv.txnRollback])
      | some _ =>
        (mk.1, [PayEv.markSucceeded pdb true, PayEv.activate, PayEv.activateDone,
          PayEv.commitTxn, PayEv.notify])

/-- Witness currency for stars payments. -/
def xtrCur : String := "XTR"

/-- Stars charge id used by the counterexample. -/
def c3Charge : String := "ch_1"

/-- Counterexample payment row: a pending Telegram Stars payment. -/
def c3Pay : Payment := ⟨5, 7, pendingStars, none, 100, xtrCur, none, none, none⟩

/-- C3, counterexample: the Telegram Stars flow (cited by the claim's own
sources, stars_service.py lines 161-191) marks payment 5 succeeded BEFORE
invoking activation and never claims the row into `processing`, so the
system-wide ordering "claim, then activate, then mark-succeeded" is violated
on this concrete successful run. -/
theorem claim_C3_counterexample :
    goodOrder false false
      (stars_process_successful_payment [c3Pay] 5 (some c3Charge)
        (ActivationOutcome.returns (some ⟨some 30⟩))).2 = false := by
  decide

/-- HTTP response of the webhook route together with the committed ledger
(on 503 paths the transaction is rolled back, so the pre-call ledger

stands). -/
structure RouteOutcome where
  http_status : ℕ
  body : String
  payments : List Payment
deriving DecidableEq, Repr

/-- Lines 747-765 of `yookassa_webhook_route`: recover the payment db id from
the processed metadata (string digits only) and check whether a terminal
`failed_*` state was recorded for it. -/
def routePdbCheck (md : WebhookMeta) : Option ℕ :=
  match md.payment_db_id with
  | some s => if pyIsDigit s then pyToNat? s else none
  | none => none

/-- The `terminal_failure_recorded` flag of the route (lines 755-765). -/
def routeTerminalRecorded (md : WebhookMeta) (payments : List Payment) : Bool :=
  match routePdbCheck md with
  | some k =>
    match get_payment_by_db_id payments k with
    | some p => pyStartsWith p.status failedStem
    | none => false
  | none => false

/-- Transcribed from `yookassa_webhook_route` for the `payment.succeeded`
event (payment.py lines 621-627 for the missing-metadata guard and lines
729-793, 899-908 for the succeeded branch): reject unverifiable deliveries
with 503, run the finalizer, commit and answer 200 only when it succeeded or
when a terminal `failed_*` state was recorded, and answer 503 after a
rollback otherwise.  An exception out of the finalizer (`retval = none`) hits
the handler at line 899: rollback and 503. -/
def yookassa_webhook_succeeded_route (w : WebhookPayload)
    (metadata_present : Bool) (payments : List Payment) (users : List ℤ)
    (env : FinalizerEnv) : RouteOutcome :=
  if !metadata_present then ⟨200, "yookassa_missing_metadata", payments⟩
  else if !env.yookassa_configured then
    ⟨503, "yookassa_verification_required", payments⟩
  else if w.paid && (w.status == succeededStatus) then
    let r := process_successful_payment w payments users env
    match r.retval with
    | none => ⟨503, "yookassa_processing_error_retry", payments⟩
    | some false =>
      if routeTerminalRecorded w.metadata r.payments then ⟨200, "ok", r.payments⟩
      else ⟨503, "yookassa_processing_failed_retry", payments⟩
    | some true => ⟨200, "ok", r.payments⟩
  else ⟨503, "yookassa_invalid_succeeded_payload", payments⟩

/-- Counterexample webhook for C8: parseable body, metadata present but
carrying no user id and no payment reference at all. -/
def c8Meta : WebhookMeta := ⟨none, some str1, none, none, none, none, none⟩

/-- Counterexample payload for C8. -/
def c8Payload : WebhookPayload := ⟨some pay123, succeededStatus, true, 100, c8Meta⟩

/-- Counterexample ledger for C8: payment 1 pending. -/
def c8Pay : Payment := ⟨1, 7, pendingYookassa, none, 100, rubCur, none, none, none⟩

/-- Counterexample environment for C8: verification configured (the provider
API would even confirm, but processing never gets that far). -/
def c8Env : FinalizerEnv :=
  ⟨true, some ⟨succeededStatus, true, some str7, some str1, 100, rubCur⟩,
    ActivationOutcome.raises, false⟩

/-- C8, counterexample: a webhook whose metadata lacks the user id (and the
payment reference) is answered with the RETRYABLE status 503, not a
non-retry status, and no terminal `failed_<reason>` state is recorded — the
ledger is untouched. -/
theorem claim_C8_counterexample :
    (yookassa_webhook_succeeded_route c8Payload true [c8Pay] [7] c8Env).http_status
        = 503 ∧
      (yookassa_webhook_succeeded_route c8Payload true [c8Pay] [7] c8Env).payments
        = [c8Pay] ∧
      ((yookassa_webhook_succeeded_route c8Payload true [c8Pay] [7] c8Env).payments.all
        (fun p => !(pyStartsWith p.status failedStem))) = true := by
  refine ⟨by decide, by decide, by decide⟩

/-- A truthy metadata value is the raw value itself. -/
theorem truthyStr_some {o : Option String} {s : String}
    (h : truthyStr o = some s) : o = some s := by
  cases o with
  | none => cases h
  | some v =>
    unfold truthyStr at h
    dsimp only at h
    by_cases hv : v.isEmpty
    · rw [if_pos hv] at h
      cases h
    · rw [if_neg hv] at h
      exact h

/-- C8 (amended): for a parseable, configured, paid+succeeded delivery,
(A) metadata lacking the user id or the payment reference, or carrying a
non-numeric payment id, makes the finalizer reject without writing anything
and the endpoint答 answers the RETRYABLE 503 (no terminal state is recorded);
whereas (B) a non-numeric user id alongside a numeric payment reference is
recorded as the terminal `failed_metadata_error` ledger state and answered
with the non-retry 200. -/
theorem claim_C8_amended (w : WebhookPayload) (payments : List Payment)
    (users : List ℤ) (env : FinalizerEnv)
    (hconf : env.yookassa_configured = true)
    (hpaid : w.paid = true)
    (hstat : w.status = succeededStatus) :
    ((truthyStr w.metadata.user_id = none ∨
        truthyStr w.metadata.payment_db_id = none ∨
        (∀ s, truthyStr w.metadata.payment_db_id = some s → pyIsDigit s = false)) →
      (∀ p ∈ payments, pyStartsWith p.status failedStem = false) →
      process_successful_payment w payments users env = ⟨some false, payments, []⟩ ∧
        yookassa_webhook_succeeded_route w true payments users env
          = ⟨503, "yookassa_processing_failed_retry", payments⟩) ∧
      (∀ us ps k rec,
        truthyStr w.metadata.user_id = some us →
        pyInt? us = none →
        truthyStr w.metadata.payment_db_id = some ps →
        pyIsDigit ps = true →
        pyToNat? ps = some k →
        ((truthyStr w.metadata.subscription_months).isNone
          && (truthyStr w.metadata.traffic_gb).isNone) = false →
        get_payment_by_db_id payments k = some rec →
        (yookassa_webhook_succeeded_route w true payments users env).http_status = 200 ∧
          Option.map (fun p => p.status)
            (get_payment_by_db_id
              (yookassa_webhook_succeeded_route w true payments users env).payments k)
            = some failedMetadataError) := by
  have hpay : (w.paid && (w.status == succeededStatus)) = true := by
    rw [hpaid, hstat]
    simp
  constructor
  · intro hmiss hnofail
    have hproc : process_successful_payment w payments users env
        = ⟨some false, payments, []⟩ := by
      rcases hmiss with hu | hp | hnd
      · unfold process_successful_payment
        rw [hu]
      · unfold process_successful_payment
        rw [hp]
        cases truthyStr w.metadata.user_id <;> rfl
      · unfold process_successful_payment
        cases hu : truthyStr w.metadata.user_id with
        | none => rfl
        | some us =>
          cases hp : truthyStr w.metadata.payment_db_id with
          | none => rfl
          | some ps =>
            have hd := hnd ps hp
            dsimp only
            cases hg : (truthyStr w.metadata.subscription_months).isNone
                && (truthyStr w.metadata.traffic_gb).isNone with
            | true => simp only [hg, if_true]
            | false =>
              simp only [hg, Bool.false_eq_true, if_false]
              cases hpr : parseIds w.metadata us with
              | none => simp only [hd, Bool.false_eq_true, if_false]
              | some t =>
                obtain ⟨uid, months, traffic⟩ := t
                simp only [hd, Bool.not_false, if_true]
    have hterm : routeTerminalRecorded w.metadata payments = false := by
      unfold routeTerminalRecorded
      cases hpc : routePdbCheck w.metadata with
      | none => rfl
      | some k =>
        dsimp only
        cases hg : get_payment_by_db_id payments k with
        | none => rfl
        | some p =>
          dsimp only
          exact hnofail p (List.mem_of_find?_eq_some
            (show payments.find? (fun q => q.payment_id == k) = some p from hg))
    refine ⟨hproc, ?_⟩
    unfold yookassa_webhook_succeeded_route
    rw [hconf]
    simp only [Bool.not_true, Bool.false_eq_true, if_false, hpay, if_true, hproc, hterm]
  · intro us ps k rec hus huid hps hdigit hk hguard hrec
    have hparse : parseIds w.metadata us = none := by
      unfold parseIds
      rw [huid]
    have hproc : process_successful_payment w payments users env
        = ⟨some false,
            (update_payment_status_by_db_id payments k failedMetadataError w.id).1,
            [PayEv.statusUpdate k failedMetadataError]⟩ := by
      unfold process_successful_payment
      rw [hus, hps]
      dsimp only
      simp only [hguard, Bool.false_eq_true, if_false, hparse, hdigit, if_true, hk,
        Option.getD_some]
    have hid0 := List.find?_some
      (show payments.find? (fun p => p.payment_id == k) = some rec from hrec)
    have hupd : get_payment_by_db_id
        (update_payment_status_by_db_id payments k failedMetadataError w.id).1 k
        = some (updateStatusRow k failedMetadataError w.id rec) := by
      have hm := get_payment_by_db_id_map payments k
        (updateStatusRow k failedMetadataError w.id) (updateStatusRow_id k failedMetadataError w.id)
      rw [show (update_payment_status_by_db_id payments k failedMetadataError w.id).1
          = payments.map (updateStatusRow k failedMetadataError w.id) from rfl, hm, hrec]
      rfl
    have hrow : (updateStatusRow k failedMetadataError w.id rec).status
        = failedMetadataError := by
      unfold updateStatusRow
      rw [if_pos hid0]
    have hraw : w.metadata.payment_db_id = some ps := truthyStr_some hps
    have hterm : routeTerminalRecorded w.metadata
        (update_payment_status_by_db_id payments k failedMetadataError w.id).1 = true := by
      unfold routeTerminalRecorded routePdbCheck
      rw [hraw]
      simp only [hdigit, if_true, hk, hupd, hrow]
      decide
    have hroute : yookassa_webhook_succeeded_route w true payments users env
        = ⟨200, "ok",
            (update_payment_status_by_db_id payments k failedMetadataError w.id).1⟩ := by
      unfold yookassa_webhook_succeeded_route
      rw [hconf]
      simp only [Bool.not_true, Bool.false_eq_true, if_false, hpay, if_true, hproc, hterm]
    rw [hroute]
    exact ⟨rfl, by rw [hupd]; simp [hrow]⟩

/-- Non-numeric user id string used by the C8 witness. -/
def strAbc : String := "abc"

/-- Witness metadata for C8's amended claim: non-numeric user id, numeric
payment reference. -/
def c8bMeta : WebhookMeta := ⟨some strAbc, some str1, none, none, none, some str1, none⟩

/-- Witness payload for C8's amended claim. -/
def c8bPayload : WebhookPayload := ⟨some pay123, succeededStatus, true, 100, c8bMeta⟩

/-- Witness for C8 (amended), part B: the non-numeric user id is recorded as
`failed_metadata_error` and the endpoint answers 200. -/
theorem claim_C8_amended_witness :
    c8Env.yookassa_configured = true ∧
      c8bPayload.paid = true ∧
      c8bPayload.status = succeededStatus ∧
      (yookassa_webhook_succeeded_route c8bPayload true [c8Pay] [7] c8Env).http_status
        = 200 ∧
      Option.map (fun p => p.status)
        (get_payment_by_db_id
          (yookassa_webhook_succeeded_route c8bPayload true [c8Pay] [7] c8Env).payments 1)
        = some failedMetadataError := by
  have h := (claim_C8_amended c8bPayload [c8Pay] [7] c8Env
      (by decide) (by decide) (by decide)).2
    strAbc str1 1 c8Pay (by decide) (by decide) (by decide) (by decide) (by decide)
    (by decide) (by decide)
  exact ⟨by decide, by decide, by decide, h.1, h.2⟩

/-- Stars price tables from the settings; Python dict keys (`int` or `float`
months) are idealized as rationals, under which the subscription branch's
int-key and float-key lookups (stars_service.py lines 38-44) coincide,
because Python dict lookup compares `2` and `2.0` equal. -/
structure StarsSettings where
  stars_subscription_options : List (ℚ × ℤ)
  stars_traffic_packages : List (ℚ × ℤ)
deriving DecidableEq, Repr

/-- Dictionary lookup by months key. -/
def lookupPrice (table : List (ℚ × ℤ)) (key : ℚ) : Option ℤ :=
  (table.find? (fun kv => decide (kv.1 = key))).map (fun kv => kv.2)

/-- Transcribed from `StarsService._resolve_base_stars_price`
(stars_service.py lines 30-56); the traffic branch falls back to a
`math.isclose` scan with absolute tolerance `1e-9` and zero relative
tolerance. -/
def resolve_base_stars_price (s : StarsSettings) (months : ℚ)
    (sale_mode : String) : Option ℤ :=
  if !(sale_mode == trafficMode) then
    lookupPrice s.stars_subscription_options months
  else
    match lookupPrice s.stars_traffic_packages months with
    | some p => some p
    | none =>
      (s.stars_traffic_packages.find?
        (fun kv => decide (|kv.1 - months| ≤ 1 / 1000000000))).map
        (fun kv => kv.2)

/-- The payment-record fields `create_invoice` persists (stars_service.py
lines 107-118). -/
structure PaymentRecordData where
  user_id : ℤ
  amount : ℚ
  original_amount : Option ℚ
  discount_applied : Option ℚ
  currency : String
  status : String
  promo_code_id : Option ℕ
deriving DecidableEq, Repr

/-- Collaborators of `create_invoice`.  `discount` models
`apply_discount_to_payment` (a helper module outside the verified tree); the
source calls it with the server-resolved original price only (line 94), never
with the client-supplied one, which the oracle signature makes explicit. -/
structure InvoiceOracle where
  has_promo_service : Bool
  discount : ℤ → ℚ → ℚ × ℚ × Option ℕ
  created_payment_id : Option ℕ
  send_invoice_ok : Bool

/-- Observable outcome of `create_invoice`: the stars amount put on the
invoice, the persisted record data, the returned payment id, and whether the
price-mismatch warning was logged (the only effect of the client price). -/
structure CreateInvoiceOutcome where
  invoice_amount : Option ℤ
  record : Option PaymentRecordData
  result : Option ℕ
  price_mismatch_logged : Bool
deriving DecidableEq, Repr

/-- Transcribed from `StarsService.create_invoice` (stars_service.py lines
58-145): the base price is always resolved server-side; a client price that
disagrees is logged and discarded (lines 73-85); the discount is applied to
the server price with a ceiling; record creation failure and invoice-send
failure return `None`. -/
def create_invoice (s : StarsSettings) (o : InvoiceOracle) (uid : ℤ)
    (months : ℚ) (stars_price : ℤ) (sale_mode : String) : CreateInvoiceOutcome :=
  match resolve_base_stars_price s months sale_mode with
  | none => ⟨none, none, none, false⟩
  | some resolved =>
    let original_stars_price := resolved
    let mismatch := !(stars_price == original_stars_price)
    let dres :=
      if o.has_promo_service then o.discount uid (original_stars_price : ℚ)
      else ((original_stars_price : ℚ), 0, none)
    let discTruthy := o.has_promo_service && !(decide (dres.2.1 = 0))
    let price : ℤ := if discTruthy then ⌈dres.1⌉ else original_stars_price
    let discount_amount_stars : ℤ := original_stars_price - price
    let recordTruthy := discTruthy && !(decide (discount_amount_stars = 0))
    let recordData : PaymentRecordData :=
      ⟨uid, (price : ℚ),
        if recordTruthy then some ((original_stars_price : ℤ) : ℚ) else none,
        if recordTruthy then some ((discount_amount_stars : ℤ) : ℚ) else none,
        xtrCur, pendingStars,
        if o.has_promo_service then dres.2.2 else none⟩
    match o.created_payment_id with
    | none => ⟨some price, none, none, mismatch⟩
    | some pid =>
      if o.send_invoice_ok then ⟨some price, some recordData, some pid, mismatch⟩
      else ⟨some price, some recordData, none, mismatch⟩

/-- C10: the client-supplied stars price cannot influence anything but the
warning log — two calls differing only in it produce the same invoice
amount, the same persisted record fields (amount, original_amount,
discount_applied, promo_code_id) and the same success/failure result; and
a client price equal to the resolved base price logs no warning. -/
theorem claim_C10 (s : StarsSettings) (o : InvoiceOracle) (uid : ℤ)
    (months : ℚ) (sale_mode : String) (s1 s2 : ℤ) :
    (create_invoice s o uid months s1 sale_mode).invoice_amount
        = (create_invoice s o uid months s2 sale_mode).invoice_amount ∧
      (create_invoice s o uid months s1 sale_mode).record
        = (create_invoice s o uid months s2 sale_mode).record ∧
      (create_invoice s o uid months s1 sale_mode).result
        = (create_invoice s o uid months s2 sale_mode).result ∧
      (∀ resolved, resolve_base_stars_price s months sale_mode = some resolved →
        (create_invoice s o uid months resolved sale_mode).price_mismatch_logged
          = false) := by
  refine ⟨?_, ?_, ?_, ?_⟩
  all_goals unfold create_invoice
  · cases resolve_base_stars_price s months sale_mode with
    | none => rfl
    | some resolved =>
      cases o.created_payment_id with
      | none => rfl
      | some pid => cases o.send_invoice_ok <;> rfl
  · cases resolve_base_stars_price s months sale_mode with
    | none => rfl
    | some resolved =>
      cases o.created_payment_id with
      | none => rfl
      | some pid => cases o.send_invoice_ok <;> rfl
  · cases resolve_base_stars_price s months sale_mode with
    | none => rfl
    | some resolved =>
      cases o.created_payment_id with
      | none => rfl
      | some pid => cases o.send_invoice_ok <;> rfl
  · intro resolved hres
    rw [hres]
    dsimp only
    cases o.created_payment_id with
    | none => simp
    | some pid => cases o.send_invoice_ok <;> simp
